import Mathlib

/-!
Verification of the TrineDSL toolchain (lexer, parser, interpreter, operator
library, error model) of the photonicssoftware repository, as a shallow
embedding in Lean 4.  Source text is modelled as `List Char`; the Python
exceptions are modelled as `Except TrineDSLError`.
-/

deriving instance DecidableEq for Except

namespace TrineDSL

/-- Source text / token text, modelled as a list of characters. -/
abbrev Str := List Char

/-- Convert a Lean string literal to our character-list text model. -/
def str (s : String) : Str := s.data

/-! ## errors.py: the shared diagnostic shape (`TrineDSLError`). -/

/-- Embedding of `errors.TrineDSLError`: `{error_type, error_statement, line,
column, line_text, description}`.  The three Python subclasses only tag the
stage; the stage label is carried in `error_type`. -/
structure TrineDSLError where
  error_type : Str
  error_statement : Str
  line : Nat
  column : Nat
  line_text : Str
  description : Str
deriving DecidableEq, Repr

/-! ## lexer.py -/

/-- Embedding of `lexer.Token`: `{kind, value, pos}` with `kind` a closed set. -/
inductive TokenKind where
  | IDENT | TRIT | KW_TRIT
  | EQUAL | COMMA | SEMI | LPAREN | RPAREN
  | EOF
deriving DecidableEq, Repr

structure Token where
  kind : TokenKind
  value : Str
  pos : Nat
deriving DecidableEq, Repr

/-- `lexer._is_ident_start`: letter or underscore. -/
def _is_ident_start (ch : Char) : Bool := ch.isAlpha || ch = '_'

/-- `lexer._is_ident_part`: letter, digit or underscore. -/
def _is_ident_part (ch : Char) : Bool := ch.isAlphanum || ch = '_'

/-- Index of the last newline of `s` (mirrors `src.rfind("\n", 0, pos)` once
applied to `src.take pos`). -/
def lastNewline : Str → Option Nat
  | [] => none
  | c :: cs =>
    match lastNewline cs with
    | some k => some (k + 1)
    | none => if c = '\n' then some 0 else none

/-- Index of the first newline of `s` (mirrors `src.find("\n", pos)` once
applied to `src.drop pos`). -/
def firstNewline : Str → Option Nat
  | [] => none
  | c :: cs =>
    if c = '\n' then some 0 else (firstNewline cs).map (· + 1)

/-- Embedding of `lexer._pos_to_line_col`: map a 0-based offset to a 1-based
line number, 1-based column number, and the text of that line without its
terminating newline. -/
def _pos_to_line_col (src : Str) (pos : Nat) : Nat × Nat × Str :=
  let line_start :=
    match lastNewline (src.take pos) with
    | none => 0
    | some k => k + 1
  let line_end :=
    match firstNewline (src.drop pos) with
    | none => src.length
    | some k => pos + k
  let line_text := (src.drop line_start).take (line_end - line_start)
  let line_no := (src.take pos).count '\n' + 1
  let col_no := pos - line_start + 1
  (line_no, col_no, line_text)

/-- Build a Lex-stage diagnostic at offset `pos`, as the two `raise
TrineDSLLexError(...)` sites in `tokenize` do. -/
def mkLexError (src : Str) (pos : Nat) (stmt desc : Str) : TrineDSLError :=
  let lc := _pos_to_line_col src pos
  { error_type := str "Lexing Error", error_statement := stmt,
    line := lc.1, column := lc.2.1, line_text := lc.2.2, description := desc }

/-- The current scan offset `i` of the `tokenize` loop: `rest` is always a
suffix of `src`, so `i = src.length - rest.length`. -/
def tokOffset (src rest : Str) : Nat := src.length - rest.length

/-- The `# Trit literals: -1, 0, +1` branch of the `tokenize` loop, scanning
a digit run (with optional sign) that starts with `ch` at offset `i` and
continues into `cs`; returns the `TRIT` token and the unscanned rest, or
the `Invalid Trit Literal` diagnostic. -/
def scanDigitRun (src : Str) (i : Nat) (ch : Char) (cs : Str) :
    Except TrineDSLError (Token × Str) :=
  if ch = '+' || ch = '-' then
    if (cs.head?.map Char.isDigit).getD false then
      if ch :: cs.takeWhile Char.isDigit = str "-1"
          || ch :: cs.takeWhile Char.isDigit = str "0"
          || ch :: cs.takeWhile Char.isDigit = str "+1" then
        .ok (⟨TokenKind.TRIT, ch :: cs.takeWhile Char.isDigit, i⟩,
          cs.drop (cs.takeWhile Char.isDigit).length)
      else
        .error (mkLexError src i (str "Invalid Trit Literal")
          ('\'' :: (ch :: cs.takeWhile Char.isDigit)
            ++ str "' is not a valid trit literal; expected -1, 0, or +1."))
    else
      .error (mkLexError src i (str "Invalid Trit Literal")
        (str "Invalid signed numeric literal; trits must be -1, 0, or +1."))
  else
    if (ch :: cs).takeWhile Char.isDigit = str "-1"
        || (ch :: cs).takeWhile Char.isDigit = str "0"
        || (ch :: cs).takeWhile Char.isDigit = str "+1" then
      .ok (⟨TokenKind.TRIT, (ch :: cs).takeWhile Char.isDigit, i⟩,
        (ch :: cs).dropWhile Char.isDigit)
    else
      .error (mkLexError src i (str "Invalid Trit Literal")
        ('\'' :: (ch :: cs).takeWhile Char.isDigit
          ++ str "' is not a valid trit literal; expected -1, 0, or +1."))

/-- One step of the `tokenize` loop, fuelled so the recursion is structural.
`rest` is the unscanned suffix of `src`; the current offset `i` is
`src.length - rest.length`.  Every loop iteration of the Python code consumes
at least one character, so fuel `src.length + 1` never runs out; the
out-of-fuel branch is unreachable for the wrapper below. -/
def tokenizeAux (src : Str) : Nat → Str → Except TrineDSLError (List Token)
  | 0, _ =>
    .error { error_type := str "Lexing Error", error_statement := str "Internal Error",
             line := 1, column := 1, line_text := [], description := str "fuel exhausted" }
  | _ + 1, [] => .ok [⟨TokenKind.EOF, [], src.length⟩]
  | fuel + 1, ch :: cs =>
    -- Whitespace
    if ch.isWhitespace then
      tokenizeAux src fuel cs
    -- Line comments: //...
    else if ch = '/' && cs.head? = some '/' then
      tokenizeAux src fuel (cs.tail.dropWhile (fun c => c ≠ '\n'))
    -- Symbols
    else if ch = '=' then
      (tokenizeAux src fuel cs).map (⟨TokenKind.EQUAL, ['='], tokOffset src (ch :: cs)⟩ :: ·)
    else if ch = ',' then
      (tokenizeAux src fuel cs).map (⟨TokenKind.COMMA, [','], tokOffset src (ch :: cs)⟩ :: ·)
    else if ch = ';' then
      (tokenizeAux src fuel cs).map (⟨TokenKind.SEMI, [';'], tokOffset src (ch :: cs)⟩ :: ·)
    else if ch = '(' then
      (tokenizeAux src fuel cs).map (⟨TokenKind.LPAREN, ['('], tokOffset src (ch :: cs)⟩ :: ·)
    else if ch = ')' then
      (tokenizeAux src fuel cs).map (⟨TokenKind.RPAREN, [')'], tokOffset src (ch :: cs)⟩ :: ·)
    -- Trit literals: -1, 0, +1
    else if ch = '+' || ch = '-' || ch.isDigit then
      match scanDigitRun src (tokOffset src (ch :: cs)) ch cs with
      | .error e => .error e
      | .ok (tok, rest2) => (tokenizeAux src fuel rest2).map (tok :: ·)
    -- Identifiers / keywords
    else if _is_ident_start ch then
      if ch :: cs.takeWhile _is_ident_part = str "trit" then
        (tokenizeAux src fuel (cs.dropWhile _is_ident_part)).map
          (⟨TokenKind.KW_TRIT, ch :: cs.takeWhile _is_ident_part, tokOffset src (ch :: cs)⟩ :: ·)
      else
        (tokenizeAux src fuel (cs.dropWhile _is_ident_part)).map
          (⟨TokenKind.IDENT, ch :: cs.takeWhile _is_ident_part, tokOffset src (ch :: cs)⟩ :: ·)
    -- Unexpected character
    else
      .error (mkLexError src (tokOffset src (ch :: cs)) (str "Unexpected Character")
        ('\'' :: ch :: str "' is an unexpected character."))

/-- Embedding of `lexer.tokenize`. -/
def tokenize (src : Str) : Except TrineDSLError (List Token) :=
  tokenizeAux src (src.length + 1) src

/-! ## ast.py: the closed AST variant set. -/

/-- Embedding of `ast.Expr` and its three dataclass variants `Name`,
`TritLiteral`, `FuncCall`. -/
inductive Expr where
  | Name (name : Str)
  | TritLiteral (value : Int)
  | FuncCall (func : Str) (args : List Expr)

/-- Embedding of `ast.Statement` and its variants `Decl` (with `type_name`,
currently always `"trit"`) and `Assign`. -/
inductive Statement where
  | Decl (type_name : Str) (names : List Str)
  | Assign (name : Str) (expr : Expr)

/-- Embedding of `ast.Program`. -/
structure Program where
  statements : List Statement

/-! ## parser.py

The Python `Parser` keeps `tokens` plus a cursor `self.pos`; we model the
state as the remaining token list.  `self.current` never runs past the `EOF`
sentinel on lexer output, so the empty-list fallback below is unreachable
there. -/

/-- `self.current` on the remaining-token representation. -/
def currentTok : List Token → Token
  | [] => ⟨TokenKind.EOF, [], 0⟩
  | t :: _ => t

/-- The Python token-kind strings, as interpolated into diagnostics. -/
def kindStr : TokenKind → Str
  | .IDENT => str "IDENT"
  | .TRIT => str "TRIT"
  | .KW_TRIT => str "KW_TRIT"
  | .EQUAL => str "EQUAL"
  | .COMMA => str "COMMA"
  | .SEMI => str "SEMI"
  | .LPAREN => str "LPAREN"
  | .RPAREN => str "RPAREN"
  | .EOF => str "EOF"

/-- Build a Parse-stage diagnostic at offset `pos` (the
`raise TrineDSLParseError(...)` sites). -/
def mkParseError (src : Str) (pos : Nat) (stmt desc : Str) : TrineDSLError :=
  let lc := _pos_to_line_col src pos
  { error_type := str "Parsing Error", error_statement := stmt,
    line := lc.1, column := lc.2.1, line_text := lc.2.2, description := desc }

/-- Unreachable fuel-exhaustion diagnostic for the fuelled parser functions. -/
def fuelError : TrineDSLError :=
  { error_type := str "Parsing Error", error_statement := str "Internal Error",
    line := 1, column := 1, line_text := [], description := str "fuel exhausted" }

/-- `int(tok.value)` as applied to a `TRIT` token, whose text the lexer
guarantees to be one of `-1`, `0`, `+1`. -/
def tritValue (s : Str) : Int :=
  if s = str "-1" then -1 else if s = str "+1" then 1 else 0

mutual

/-- Embedding of `Parser.parse_expr`:
`Expr ::= TRIT_LITERAL | IDENT | IDENT "(" [ Expr { "," Expr } ] ")"`. -/
def parse_expr (src : Str) : Nat → List Token → Except TrineDSLError (Expr × List Token)
  | 0, _ => .error fuelError
  | fuel + 1, toks =>
    if (currentTok toks).kind = TokenKind.TRIT then
      .ok (Expr.TritLiteral (tritValue (currentTok toks).value), toks.tail)
    else if (currentTok toks).kind = TokenKind.IDENT then
      if (currentTok toks.tail).kind = TokenKind.LPAREN then
        match
          (if (currentTok toks.tail.tail).kind ≠ TokenKind.RPAREN then
            parse_args src fuel toks.tail.tail
          else .ok ([], toks.tail.tail)) with
        | .error e => .error e
        | .ok (args, rest) =>
          if (currentTok rest).kind = TokenKind.RPAREN then
            .ok (Expr.FuncCall (currentTok toks).value args, rest.tail)
          else
            .error (mkParseError src (currentTok rest).pos (str "Missing Closing Parenthesis")
              (str "Expected ')' to close function call arguments."))
      else
        .ok (Expr.Name (currentTok toks).value, toks.tail)
    else
      .error (mkParseError src (currentTok toks).pos (str "Unexpected Token in Expression")
        (str "Unexpected token '" ++ (currentTok toks).value ++ str "' ("
          ++ kindStr (currentTok toks).kind ++ str ") in expression."))

/-- The argument loop of `Parser.parse_expr`:
`args.append(parse_expr()); while match(COMMA): args.append(parse_expr())`. -/
def parse_args (src : Str) : Nat → List Token → Except TrineDSLError (List Expr × List Token)
  | 0, _ => .error fuelError
  | fuel + 1, toks =>
    match parse_expr src fuel toks with
    | .error e => .error e
    | .ok (e, rest) =>
      if (currentTok rest).kind = TokenKind.COMMA then
        match parse_args src fuel rest.tail with
        | .error e2 => .error e2
        | .ok (es, rest2) => .ok (e :: es, rest2)
      else
        .ok ([e], rest)

end

/-- The name loop of `Parser.parse_decl_stmt`:
`while self._match("COMMA"): expect IDENT, append`. -/
def parse_decl_names (src : Str) : Nat → List Token → Except TrineDSLError (List Str × List Token)
  | 0, _ => .error fuelError
  | fuel + 1, toks =>
    if (currentTok toks).kind = TokenKind.COMMA then
      let identTok := currentTok toks.tail
      if identTok.kind = TokenKind.IDENT then
        match parse_decl_names src fuel toks.tail.tail with
        | .error e => .error e
        | .ok (names, rest) => .ok (identTok.value :: names, rest)
      else
        .error (mkParseError src identTok.pos (str "Expected Identifier in Declaration")
          (str "Expected an identifier after ','."))
    else
      .ok ([], toks)

/-- Embedding of `Parser.parse_decl_stmt`: `DeclStmt ::= "trit" Ident { "," Ident }`. -/
def parse_decl_stmt (src : Str) (fuel : Nat) (toks : List Token) :
    Except TrineDSLError (Statement × List Token) :=
  let kw := currentTok toks
  if kw.kind ≠ TokenKind.KW_TRIT then
    .error (mkParseError src kw.pos (str "Expected 'trit' Keyword")
      (str "Declaration must start with the 'trit' keyword."))
  else
    let first := currentTok toks.tail
    if first.kind ≠ TokenKind.IDENT then
      .error (mkParseError src first.pos (str "Expected Identifier in Declaration")
        (str "Expected an identifier after 'trit'."))
    else
      match parse_decl_names src fuel toks.tail.tail with
      | .error e => .error e
      | .ok (names, rest) =>
        .ok (Statement.Decl (str "trit") (first.value :: names), rest)

/-- Embedding of `Parser.parse_assign_stmt`: `AssignStmt ::= IDENT "=" Expr`. -/
def parse_assign_stmt (src : Str) (fuel : Nat) (toks : List Token) :
    Except TrineDSLError (Statement × List Token) :=
  if (currentTok toks).kind ≠ TokenKind.IDENT then
    .error (mkParseError src (currentTok toks).pos (str "Expected Identifier in Assignment")
      (str "Assignment must start with an identifier."))
  else if (currentTok toks.tail).kind ≠ TokenKind.EQUAL then
    .error (mkParseError src (currentTok toks.tail).pos (str "Expected '=' After Identifier")
      (str "Expected '=' after identifier in assignment."))
  else
    match parse_expr src fuel toks.tail.tail with
    | .error e => .error e
    | .ok (e, rest) => .ok (Statement.Assign (currentTok toks).value e, rest)

/-- Embedding of `Parser.parse_statement`: dispatch on the current token's
kind, then require the terminating `SEMI`. -/
def parse_statement (src : Str) (fuel : Nat) (toks : List Token) :
    Except TrineDSLError (Statement × List Token) :=
  match
    (if (currentTok toks).kind = TokenKind.KW_TRIT then
      parse_decl_stmt src fuel toks
    else if (currentTok toks).kind = TokenKind.IDENT then
      parse_assign_stmt src fuel toks
    else
      .error (mkParseError src (currentTok toks).pos (str "Unexpected Token at Statement Start")
        (str "Unexpected token '" ++ (currentTok toks).value ++ str "' ("
          ++ kindStr (currentTok toks).kind ++ str ") at the beginning of a statement.")))
  with
  | .error e => .error e
  | .ok (stmt, rest) =>
    if (currentTok rest).kind ≠ TokenKind.SEMI then
      .error (mkParseError src (currentTok rest).pos (str "Missing Semicolon")
        (str "Expected ';' at the end of the statement."))
    else
      .ok (stmt, rest.tail)

/-- Embedding of `Parser.parse_program`:
`while self.current.kind != "EOF": statements.append(self.parse_statement())`. -/
def parse_program_toks (src : Str) : Nat → List Token → Except TrineDSLError (List Statement)
  | 0, _ => .error fuelError
  | fuel + 1, toks =>
    if (currentTok toks).kind ≠ TokenKind.EOF then
      match parse_statement src fuel toks with
      | .error e => .error e
      | .ok (stmt, rest) =>
        match parse_program_toks src fuel rest with
        | .error e => .error e
        | .ok stmts => .ok (stmt :: stmts)
    else
      .ok []

/-- Embedding of the module-level `parser.parse_program`: tokenize then parse.
The fuel `2 * |toks| + 4` dominates the recursion depth of the fuelled
parser functions, each of whose recursive steps consumes at least one token
or one grammar production. -/
def parse_program (src : Str) : Except TrineDSLError Program :=
  match tokenize src with
  | .error e => .error e
  | .ok toks =>
    match parse_program_toks src (2 * toks.length + 4) toks with
    | .error e => .error e
    | .ok stmts => .ok ⟨stmts⟩

/-! ## ops.py: the eleven operator functions and the dispatcher. -/

/-- Decimal digits of a natural number, as Python's `str` renders it inside
f-strings.  Fuelled so the recursion is structural; `n + 1` fuel always
suffices since `n / 10 < n` for `n ≥ 10`. -/
def natDigitsAux : Nat → Nat → Str
  | 0, _ => []
  | fuel + 1, n =>
    if n < 10 then [Nat.digitChar n]
    else natDigitsAux fuel (n / 10) ++ [Nat.digitChar (n % 10)]

def natDigits (n : Nat) : Str := natDigitsAux (n + 1) n

/-- Python's `str` of an integer. -/
def intStr (v : Int) : Str :=
  if v < 0 then '-' :: natDigits (-v).toNat else natDigits v.toNat

/-- Embedding of `ops._rt_error`: runtime errors raised inside the operator
library (and the interpreter's environment) carry the default position
line 1, column 1 and an empty line text. -/
def _rt_error (stmt desc : Str) : TrineDSLError :=
  { error_type := str "Runtime Error", error_statement := stmt,
    line := 1, column := 1, line_text := [], description := desc }

/-- Embedding of `ops._check_trit`: `x` must be in `{-1, 0, +1}`. -/
def _check_trit (x : Int) : Except TrineDSLError Int :=
  if x = -1 ∨ x = 0 ∨ x = 1 then .ok x
  else
    .error (_rt_error (str "Invalid Trit Value")
      (str "Invalid trit value " ++ intStr x ++ str ", expected -1, 0, or +1."))

/-- `ops.op_C`, the cyclic inverter: -1 → 0, 0 → +1, +1 → -1. -/
def op_C (x : Int) : Except TrineDSLError Int :=
  match _check_trit x with
  | .error e => .error e
  | .ok x => if x = -1 then .ok 0 else if x = 0 then .ok 1 else .ok (-1)

/-- `ops.op_N`, the negator: constant -1. -/
def op_N (x : Int) : Except TrineDSLError Int :=
  match _check_trit x with
  | .error e => .error e
  | .ok _ => .ok (-1)

/-- `ops.op_A`, the antinegator: constant +1. -/
def op_A (x : Int) : Except TrineDSLError Int :=
  match _check_trit x with
  | .error e => .error e
  | .ok _ => .ok 1

/-- `ops.op_TNOT`: sign inversion. -/
def op_TNOT (x : Int) : Except TrineDSLError Int :=
  match _check_trit x with
  | .error e => .error e
  | .ok x => .ok (-x)

/-- `ops.op_TAND`: min. -/
def op_TAND (a b : Int) : Except TrineDSLError Int :=
  match _check_trit a with
  | .error e => .error e
  | .ok a =>
    match _check_trit b with
    | .error e => .error e
    | .ok b => .ok (min a b)

/-- `ops.op_TOR`: max. -/
def op_TOR (a b : Int) : Except TrineDSLError Int :=
  match _check_trit a with
  | .error e => .error e
  | .ok a =>
    match _check_trit b with
    | .error e => .error e
    | .ok b => .ok (max a b)

/-- `ops.op_TNAND = op_TNOT(op_TAND(a, b))`. -/
def op_TNAND (a b : Int) : Except TrineDSLError Int :=
  match op_TAND a b with
  | .error e => .error e
  | .ok v => op_TNOT v

/-- `ops.op_TNOR = op_TNOT(op_TOR(a, b))`. -/
def op_TNOR (a b : Int) : Except TrineDSLError Int :=
  match op_TOR a b with
  | .error e => .error e
  | .ok v => op_TNOT v

/-- `ops._TXOR_TABLE`, entry for entry. -/
def _TXOR_TABLE : List ((Int × Int) × Int) :=
  [((-1, -1), 0), ((-1, 0), -1), ((-1, 1), 1),
   ((0, -1), -1), ((0, 0), 0), ((0, 1), -1),
   ((1, -1), 1), ((1, 0), -1), ((1, 1), 0)]

/-- `ops._TSUM_TABLE`, entry for entry. -/
def _TSUM_TABLE : List ((Int × Int) × Int) :=
  [((-1, -1), 0), ((-1, 0), -1), ((-1, 1), 0),
   ((0, -1), -1), ((0, 0), 0), ((0, 1), 1),
   ((1, -1), 0), ((1, 0), 1), ((1, 1), 0)]

/-- `ops._TCARRY_TABLE`, entry for entry. -/
def _TCARRY_TABLE : List ((Int × Int) × Int) :=
  [((-1, -1), -1), ((-1, 0), 0), ((-1, 1), 0),
   ((0, -1), 0), ((0, 0), 0), ((0, 1), 0),
   ((1, -1), 0), ((1, 0), 0), ((1, 1), 1)]

/-- Dict lookup `table[(a, b)]`; the `KeyError` case cannot arise because all
callers first run `_check_trit` on both keys, so a default of 0 stands in. -/
def tableGet (t : List ((Int × Int) × Int)) (k : Int × Int) : Int :=
  ((t.find? (fun p => p.1 == k)).map (fun p => p.2)).getD 0

/-- `ops.op_TXOR`. -/
def op_TXOR (a b : Int) : Except TrineDSLError Int :=
  match _check_trit a with
  | .error e => .error e
  | .ok a =>
    match _check_trit b with
    | .error e => .error e
    | .ok b => .ok (tableGet _TXOR_TABLE (a, b))

/-- `ops.op_TSUM`. -/
def op_TSUM (a b : Int) : Except TrineDSLError Int :=
  match _check_trit a with
  | .error e => .error e
  | .ok a =>
    match _check_trit b with
    | .error e => .error e
    | .ok b => .ok (tableGet _TSUM_TABLE (a, b))

/-- `ops.op_TCARRY`. -/
def op_TCARRY (a b : Int) : Except TrineDSLError Int :=
  match _check_trit a with
  | .error e => .error e
  | .ok a =>
    match _check_trit b with
    | .error e => .error e
    | .ok b => .ok (tableGet _TCARRY_TABLE (a, b))

/-- The `_arity` closure inside `ops.apply_func`. -/
def _arity (name : Str) (expected got : Nat) : TrineDSLError :=
  _rt_error (str "Wrong Number of Arguments")
    (str "Function '" ++ name ++ str "' expects " ++ natDigits expected
      ++ str " argument(s), but " ++ natDigits got ++ str " was provided.")

/-- Embedding of `ops.apply_func`: exact name match in source order, arity
check before invoking the operator, `Unknown Function` otherwise.  Python
indexes `args[0]`/`args[1]` after checking `len(args)`; the equivalent match
on the list shape is used here. -/
def apply_func (name : Str) (args : List Int) : Except TrineDSLError Int :=
  if name = str "C" then
    match args with
    | [a] => op_C a
    | _ => .error (_arity name 1 args.length)
  else if name = str "N" then
    match args with
    | [a] => op_N a
    | _ => .error (_arity name 1 args.length)
  else if name = str "A" then
    match args with
    | [a] => op_A a
    | _ => .error (_arity name 1 args.length)
  else if name = str "TNOT" then
    match args with
    | [a] => op_TNOT a
    | _ => .error (_arity name 1 args.length)
  else if name = str "TAND" then
    match args with
    | [a, b] => op_TAND a b
    | _ => .error (_arity name 2 args.length)
  else if name = str "TOR" then
    match args with
    | [a, b] => op_TOR a b
    | _ => .error (_arity name 2 args.length)
  else if name = str "TNAND" then
    match args with
    | [a, b] => op_TNAND a b
    | _ => .error (_arity name 2 args.length)
  else if name = str "TNOR" then
    match args with
    | [a, b] => op_TNOR a b
    | _ => .error (_arity name 2 args.length)
  else if name = str "TXOR" then
    match args with
    | [a, b] => op_TXOR a b
    | _ => .error (_arity name 2 args.length)
  else if name = str "TSUM" then
    match args with
    | [a, b] => op_TSUM a b
    | _ => .error (_arity name 2 args.length)
  else if name = str "TCARRY" then
    match args with
    | [a, b] => op_TCARRY a b
    | _ => .error (_arity name 2 args.length)
  else
    .error (_rt_error (str "Unknown Function")
      (str "Function '" ++ name ++ str "' is not defined."))

/-! ## interp.py: environment and tree-walking evaluation.

The Python `Env.vars` is an insertion-ordered `dict`; we model it as an
association list with unique keys, new keys appended at the end, in-place
value updates preserving position. -/

/-- Embedding of `interp.Env`. -/
structure Env where
  vars : List (Str × Int)
deriving DecidableEq, Repr

/-- `name in self.vars`. -/
def Env.containsVar (env : Env) (name : Str) : Bool :=
  env.vars.any (fun p => p.1 == name)

/-- In-place update of the unique entry for `name` (dict assignment to an
existing key). -/
def setVar : List (Str × Int) → Str → Int → List (Str × Int)
  | [], _, _ => []
  | (k, v) :: rest, name, value =>
    if k = name then (k, value) :: rest else (k, v) :: setVar rest name value

/-- Embedding of `Env.declare`. -/
def Env.declare (env : Env) (name : Str) (initial : Int) : Except TrineDSLError Env :=
  if env.containsVar name then
    .error (_rt_error (str "Redeclaration of Variable")
      (str "Variable '" ++ name ++ str "' is already declared."))
  else
    .ok ⟨env.vars ++ [(name, initial)]⟩

/-- Embedding of `Env.set`. -/
def Env.set (env : Env) (name : Str) (value : Int) : Except TrineDSLError Env :=
  if ¬ env.containsVar name then
    .error (_rt_error (str "Assignment to Undeclared Variable")
      (str "Variable '" ++ name ++ str "' is not declared."))
  else if ¬ (value = -1 ∨ value = 0 ∨ value = 1) then
    .error (_rt_error (str "Invalid Trit Value")
      (str "Invalid trit value " ++ intStr value ++ str " assigned to '" ++ name
        ++ str "'; expected -1, 0, or +1."))
  else
    .ok ⟨setVar env.vars name value⟩

/-- Embedding of `Env.get`. -/
def Env.get (env : Env) (name : Str) : Except TrineDSLError Int :=
  match env.vars.find? (fun p => p.1 == name) with
  | some p => .ok p.2
  | none =>
    .error (_rt_error (str "Use of Undeclared Variable")
      (str "Variable '" ++ name ++ str "' is not declared."))

mutual

/-- Embedding of `interp.eval_expr`, fuelled so the recursion through
argument lists is structural; the nesting depth of any parsed expression is
below the fuel the wrappers pass. -/
def eval_expr (env : Env) : Nat → Expr → Except TrineDSLError Int
  | 0, _ =>
    .error (_rt_error (str "Internal Error") (str "fuel exhausted"))
  | _ + 1, .Name name => env.get name
  | _ + 1, .TritLiteral val =>
    if val = -1 ∨ val = 0 ∨ val = 1 then .ok val
    else
      .error (_rt_error (str "Invalid Trit Literal")
        (str "Invalid trit literal " ++ intStr val ++ str "; expected -1, 0, or +1."))
  | fuel + 1, .FuncCall f args =>
    match eval_args env fuel args with
    | .error e => .error e
    | .ok vals => apply_func f vals

/-- The left-to-right argument evaluation
`[eval_expr(arg, env) for arg in expr.args]`. -/
def eval_args (env : Env) : Nat → List Expr → Except TrineDSLError (List Int)
  | 0, _ =>
    .error (_rt_error (str "Internal Error") (str "fuel exhausted"))
  | _ + 1, [] => .ok []
  | fuel + 1, e :: es =>
    match eval_expr env fuel e with
    | .error err => .error err
    | .ok v =>
      match eval_args env fuel es with
      | .error err => .error err
      | .ok vs => .ok (v :: vs)

end

/-- The declaration loop of `interp._eval_decl`: declare each name
left-to-right with initial value 0. -/
def declNames : List Str → Env → Except TrineDSLError Env
  | [], env => .ok env
  | n :: ns, env =>
    match env.declare n 0 with
    | .error e => .error e
    | .ok env2 => declNames ns env2

/-- Embedding of `interp.eval_stmt` (with `_eval_decl` and `_eval_assign`
inlined; the `Internal Error` fallback of the Python type-switch is
unreachable over the closed `Statement` type). -/
def eval_stmt (fuel : Nat) : Statement → Env → Except TrineDSLError Env
  | .Decl type_name names, env =>
    if type_name ≠ str "trit" then
      .error (_rt_error (str "Unsupported Type")
        (str "Unsupported type '" ++ type_name ++ str "' in declaration."))
    else
      declNames names env
  | .Assign name e, env =>
    match eval_expr env fuel e with
    | .error err => .error err
    | .ok v => env.set name v

/-- The statement loop of `interp.eval_program`. -/
def eval_stmts (fuel : Nat) : List Statement → Env → Except TrineDSLError Env
  | [], env => .ok env
  | s :: ss, env =>
    match eval_stmt fuel s env with
    | .error e => .error e
    | .ok env2 => eval_stmts fuel ss env2

/-- Embedding of `interp.eval_program`: `env is None` creates a fresh `Env`. -/
def eval_program (fuel : Nat) (prog : Program) (envOpt : Option Env) : Except TrineDSLError Env :=
  let env := match envOpt with
    | none => (⟨[]⟩ : Env)
    | some e => e
  eval_stmts fuel prog.statements env

/-- Embedding of `TrineDSL.run_source` (`__init__.py`): parse then evaluate.
The fuel `src.length + 1` strictly dominates the nesting depth of any
expression parsed from `src`. -/
def run_source (src : Str) (envOpt : Option Env) : Except TrineDSLError Env :=
  match parse_program src with
  | .error e => .error e
  | .ok prog => eval_program (src.length + 1) prog envOpt

/-! ## errors.py: the display formatter `TrineDSLError.__str__`. -/

/-- Embedding of `TrineDSLError.__str__`:
`f"{error_type}: {error_statement}\n    in line {line}: {line_text}\n    {description}"`. -/
def formatError (e : TrineDSLError) : Str :=
  (e.error_type ++ str ": " ++ e.error_statement)
    ++ '\n' :: ((str "    in line " ++ natDigits e.line ++ str ": " ++ e.line_text)
    ++ '\n' :: (str "    " ++ e.description))

/-- Split a text into its `'\n'`-separated lines (the display-side reading of
a multi-line message; used to state that the formatter emits exactly three
lines). -/
def splitOnNewline : Str → List Str
  | [] => [[]]
  | c :: cs =>
    if c = '\n' then [] :: splitOnNewline cs
    else
      match splitOnNewline cs with
      | [] => [[c]]
      | l :: ls => (c :: l) :: ls

/-- The three-valued domain of the language. -/
def isTrit (v : Int) : Prop := v = -1 ∨ v = 0 ∨ v = 1

instance (v : Int) : Decidable (isTrit v) := by unfold isTrit; infer_instance

/-- All values of an environment lie in the three-valued domain. -/
def EnvOK (env : Env) : Prop := ∀ p ∈ env.vars, isTrit p.2

/-! ## Spec-side operator tables (transcribed from the spec's words, to be
compared with the source-derived operators). -/

/-- The TXOR table exactly as the spec writes it (a row, b column, value
order -1, 0, +1). -/
def TXOR_SPEC : List (List Int) := [[0, -1, 1], [-1, 0, -1], [1, -1, 0]]

/-- The TSUM table exactly as the spec writes it. -/
def TSUM_SPEC : List (List Int) := [[0, -1, 0], [-1, 0, 1], [0, 1, 0]]

/-- The TCARRY table exactly as the spec writes it. -/
def TCARRY_SPEC : List (List Int) := [[-1, 0, 0], [0, 0, 0], [0, 0, 1]]

/-- Row/column index of a trit in the spec's tables (order -1, 0, +1). -/
def tritIdx (x : Int) : Nat := if x = -1 then 0 else if x = 0 then 1 else 2

/-- Read the spec's table at row `a`, column `b`. -/
def tableSpec (t : List (List Int)) (a b : Int) : Int :=
  (t.getD (tritIdx a) []).getD (tritIdx b) 0

/-- The dispatcher's eleven (name, arity) entries, in the source order of
`apply_func`'s name checks. -/
def FUNC_ARITIES : List (Str × Nat) :=
  [(str "C", 1), (str "N", 1), (str "A", 1), (str "TNOT", 1),
   (str "TAND", 2), (str "TOR", 2), (str "TNAND", 2), (str "TNOR", 2),
   (str "TXOR", 2), (str "TSUM", 2), (str "TCARRY", 2)]

/-- Cause label of a failed run (empty for a successful one). -/
def resultCause : Except TrineDSLError Env → Str
  | .error e => e.error_statement
  | .ok _ => []

/-- Stage label of a failed run (empty for a successful one). -/
def resultStage : Except TrineDSLError Env → Str
  | .error e => e.error_type
  | .ok _ => []

/-- Every stored field of a diagnostic is single-line. -/
def errOK (e : TrineDSLError) : Prop :=
  '\n' ∉ e.error_type ∧ '\n' ∉ e.error_statement ∧ '\n' ∉ e.line_text ∧ '\n' ∉ e.description

instance (e : TrineDSLError) : Decidable (errOK e) := by unfold errOK; infer_instance

/-- A token carries single-line text and an in-range offset. -/
def tokOK (src : Str) (t : Token) : Prop := '\n' ∉ t.value ∧ t.pos ≤ src.length

instance (src : Str) (t : Token) : Decidable (tokOK src t) := by unfold tokOK; infer_instance

/-- Every name stored in an expression is single-line. -/
inductive ExprOK : Expr → Prop where
  | name {n : Str} : '\n' ∉ n → ExprOK (.Name n)
  | lit {v : Int} : ExprOK (.TritLiteral v)
  | call {f : Str} {args : List Expr} : '\n' ∉ f → (∀ e ∈ args, ExprOK e) →
      ExprOK (.FuncCall f args)

/-- Every name stored in a statement is single-line. -/
inductive StmtOK : Statement → Prop where
  | decl {ty : Str} {names : List Str} : '\n' ∉ ty → (∀ n ∈ names, '\n' ∉ n) →
      StmtOK (.Decl ty names)
  | assign {n : Str} {e : Expr} : '\n' ∉ n → ExprOK e → StmtOK (.Assign n e)

end TrineDSL

namespace TrineDSL

/-- C3: on the three-valued domain, each of the eleven operator functions
returns exactly the value its spec definition gives: C maps -1→0, 0→+1,
+1→-1; N is constantly -1; A is constantly +1; TNOT is sign inversion;
TAND is min; TOR is max; TNAND is -min; TNOR is -max; and TXOR, TSUM,
TCARRY return the entries of the spec's tables. -/
theorem claim_C3_ops_match_spec :
    (op_C (-1) = .ok 0 ∧ op_C 0 = .ok 1 ∧ op_C 1 = .ok (-1)) ∧
    (∀ x : Int, isTrit x → op_N x = .ok (-1)) ∧
    (∀ x : Int, isTrit x → op_A x = .ok 1) ∧
    (∀ x : Int, isTrit x → op_TNOT x = .ok (-x)) ∧
    (∀ a b : Int, isTrit a → isTrit b → op_TAND a b = .ok (min a b)) ∧
    (∀ a b : Int, isTrit a → isTrit b → op_TOR a b = .ok (max a b)) ∧
    (∀ a b : Int, isTrit a → isTrit b → op_TNAND a b = .ok (-(min a b))) ∧
    (∀ a b : Int, isTrit a → isTrit b → op_TNOR a b = .ok (-(max a b))) ∧
    (∀ a b : Int, isTrit a → isTrit b → op_TXOR a b = .ok (tableSpec TXOR_SPEC a b)) ∧
    (∀ a b : Int, isTrit a → isTrit b → op_TSUM a b = .ok (tableSpec TSUM_SPEC a b)) ∧
    (∀ a b : Int, isTrit a → isTrit b → op_TCARRY a b = .ok (tableSpec TCARRY_SPEC a b)) := by
  refine ⟨⟨by decide, by decide, by decide⟩, ?_, ?_, ?_, ?_, ?_, ?_, ?_, ?_, ?_, ?_⟩ <;>
    first
      | (intro x hx; rcases hx with h | h | h <;> subst h <;> decide)
      | (intro a b ha hb; rcases ha with h | h | h <;> rcases hb with h2 | h2 | h2 <;>
          subst h <;> subst h2 <;> decide)

/-- Witness for C3 at concrete inputs. -/
theorem claim_C3_ops_match_spec_witness :
    op_TAND (-1) 0 = .ok (min (-1) 0) ∧ op_TXOR 1 (-1) = .ok (tableSpec TXOR_SPEC 1 (-1)) :=
  ⟨claim_C3_ops_match_spec.2.2.2.2.1 (-1) 0 (by decide) (by decide),
   claim_C3_ops_match_spec.2.2.2.2.2.2.2.2.1 1 (-1) (by decide) (by decide)⟩

/-- C8: algebraic identities of the operator library on the three-valued
domain: C is a 3-cycle, N and A are constant, TNOT is an involution fixing
0, TNAND = -TAND, TNOR = -TOR, TAND/TOR are commutative and associative,
and TXOR, TSUM, TCARRY are commutative. -/
theorem claim_C8_op_algebra :
    (∀ x : Int, isTrit x → (op_C x >>= op_C >>= op_C) = .ok x) ∧
    (∀ x : Int, isTrit x → op_N x = .ok (-1)) ∧
    (∀ x : Int, isTrit x → op_A x = .ok 1) ∧
    (∀ x : Int, isTrit x → (op_TNOT x >>= op_TNOT) = .ok x) ∧
    (op_TNOT 0 = .ok 0) ∧
    (∀ a b : Int, isTrit a → isTrit b →
      op_TNAND a b = (op_TAND a b).map (fun v => -v) ∧
      op_TNOR a b = (op_TOR a b).map (fun v => -v)) ∧
    (∀ a b : Int, isTrit a → isTrit b →
      op_TAND a b = op_TAND b a ∧ op_TOR a b = op_TOR b a ∧
      op_TXOR a b = op_TXOR b a ∧ op_TSUM a b = op_TSUM b a ∧
      op_TCARRY a b = op_TCARRY b a) ∧
    (∀ a b c : Int, isTrit a → isTrit b → isTrit c →
      (op_TAND a b >>= fun ab => op_TAND ab c) = (op_TAND b c >>= fun bc => op_TAND a bc) ∧
      (op_TOR a b >>= fun ab => op_TOR ab c) = (op_TOR b c >>= fun bc => op_TOR a bc)) := by
  refine ⟨?_, ?_, ?_, ?_, by decide, ?_, ?_, ?_⟩ <;>
    first
      | (intro x hx; rcases hx with h | h | h <;> subst h <;> decide)
      | (intro a b ha hb; rcases ha with h | h | h <;> rcases hb with h2 | h2 | h2 <;>
          subst h <;> subst h2 <;> decide)
      | (intro a b c ha hb hc; rcases ha with h | h | h <;> rcases hb with h2 | h2 | h2 <;>
          rcases hc with h3 | h3 | h3 <;> subst h <;> subst h2 <;> subst h3 <;> decide)

/-- Witness for C8 at concrete inputs. -/
theorem claim_C8_op_algebra_witness :
    (op_C (-1) >>= op_C >>= op_C) = .ok (-1) ∧
    (op_TAND 0 1 >>= fun ab => op_TAND ab (-1)) =
      (op_TAND 1 (-1) >>= fun bc => op_TAND 0 bc) :=
  ⟨claim_C8_op_algebra.1 (-1) (by decide),
   (claim_C8_op_algebra.2.2.2.2.2.2.2 0 1 (-1) (by decide) (by decide) (by decide)).1⟩

end TrineDSL

namespace TrineDSL

/-- A name outside the eleven entries always dispatches to Unknown Function. -/
theorem apply_func_unknown (name : Str) (args : List Int)
    (h : name ∉ FUNC_ARITIES.map Prod.fst) :
    apply_func name args = .error (_rt_error (str "Unknown Function")
      (str "Function '" ++ name ++ str "' is not defined.")) := by
  simp only [FUNC_ARITIES, List.map_cons, List.map_nil, List.mem_cons,
    List.not_mem_nil, or_false, not_or] at h
  obtain ⟨h1, h2, h3, h4, h5, h6, h7, h8, h9, h10, h11⟩ := h
  unfold apply_func
  rw [if_neg h1, if_neg h2, if_neg h3, if_neg h4, if_neg h5, if_neg h6,
    if_neg h7, if_neg h8, if_neg h9, if_neg h10, if_neg h11]

/-- A registered name with the wrong argument count always dispatches to the
Wrong Number of Arguments error, before the operator is invoked. -/
theorem apply_func_arity (name : Str) (k : Nat) (args : List Int)
    (hk : (name, k) ∈ FUNC_ARITIES) (hlen : args.length ≠ k) :
    apply_func name args = .error (_arity name k args.length) := by
  fin_cases hk <;>
  · cases args with
    | nil => rfl
    | cons a t =>
      cases t with
      | nil => first | rfl | exact absurd rfl hlen
      | cons b t2 =>
        cases t2 with
        | nil => first | rfl | exact absurd rfl hlen
        | cons c t3 => rfl

/-- C4: `apply_func` resolves by exact name match among the eleven names,
validates the argument count before invoking the function (even when the
argument values themselves are invalid), reports arity mismatches with a
Wrong Number of Arguments error stating expected and actual counts, and
fails with Unknown Function for any other name; in particular
`"trit A; A = TAND(A);"` fails stating TAND expects 2, got 1. -/
theorem claim_C4_apply_func_dispatch :
    (∀ name args, name ∉ FUNC_ARITIES.map Prod.fst →
      apply_func name args = .error (_rt_error (str "Unknown Function")
        (str "Function '" ++ name ++ str "' is not defined."))) ∧
    (∀ name k args, (name, k) ∈ FUNC_ARITIES → args.length ≠ k →
      apply_func name args = .error (_arity name k args.length)) ∧
    (∀ name k g, (_arity name k g).error_statement = str "Wrong Number of Arguments" ∧
      (_arity name k g).description =
        str "Function '" ++ name ++ str "' expects " ++ natDigits k
          ++ str " argument(s), but " ++ natDigits g ++ str " was provided.") ∧
    (∀ a b : Int,
      apply_func (str "C") [a] = op_C a ∧
      apply_func (str "N") [a] = op_N a ∧
      apply_func (str "A") [a] = op_A a ∧
      apply_func (str "TNOT") [a] = op_TNOT a ∧
      apply_func (str "TAND") [a, b] = op_TAND a b ∧
      apply_func (str "TOR") [a, b] = op_TOR a b ∧
      apply_func (str "TNAND") [a, b] = op_TNAND a b ∧
      apply_func (str "TNOR") [a, b] = op_TNOR a b ∧
      apply_func (str "TXOR") [a, b] = op_TXOR a b ∧
      apply_func (str "TSUM") [a, b] = op_TSUM a b ∧
      apply_func (str "TCARRY") [a, b] = op_TCARRY a b) ∧
    apply_func (str "TAND") [5] = .error (_arity (str "TAND") 2 1) ∧
    run_source (str "trit A; A = TAND(A);") none = .error (_arity (str "TAND") 2 1) ∧
    (_arity (str "TAND") 2 1).description =
      str "Function 'TAND' expects 2 argument(s), but 1 was provided." := by
  refine ⟨?_, ?_, ?_, ?_, by decide, by decide, by decide⟩
  · exact fun name args h => apply_func_unknown name args h
  · exact fun name k args hk hlen => apply_func_arity name k args hk hlen
  · intro name k g
    exact ⟨rfl, rfl⟩
  · intro a b
    exact ⟨rfl, rfl, rfl, rfl, rfl, rfl, rfl, rfl, rfl, rfl, rfl⟩

/-- Witness for C4 at concrete inputs. -/
theorem claim_C4_apply_func_dispatch_witness :
    apply_func (str "FOO") [] = .error (_rt_error (str "Unknown Function")
      (str "Function '" ++ str "FOO" ++ str "' is not defined.")) ∧
    apply_func (str "TAND") [0] = .error (_arity (str "TAND") 2 [(0 : Int)].length) :=
  ⟨claim_C4_apply_func_dispatch.1 (str "FOO") [] (by decide),
   claim_C4_apply_func_dispatch.2.1 (str "TAND") 2 [0] (by decide) (by decide)⟩

end TrineDSL

namespace TrineDSL

/-- After an in-place update of a present key, lookup finds the new value. -/
theorem setVar_find (name : Str) (value : Int) :
    ∀ l : List (Str × Int), l.any (fun p => p.1 == name) = true →
      (setVar l name value).find? (fun p => p.1 == name) = some (name, value) := by
  intro l
  induction l with
  | nil => simp
  | cons hd tl ih =>
    obtain ⟨k, v⟩ := hd
    intro h
    by_cases hk : k = name
    · subst hk
      simp [setVar]
    · rw [show setVar ((k, v) :: tl) name value = (k, v) :: setVar tl name value from by
        simp [setVar, hk]]
      rw [List.find?_cons_of_neg _ (by simpa using hk)]
      apply ih
      simpa [List.any_cons, hk] using h

/-- C5: `declare` fails with Redeclaration of Variable exactly when the name
is present (including a duplicate name inside one comma-separated
declaration list, declared left-to-right) and otherwise appends the name
with value 0; `set` fails with Assignment to Undeclared Variable exactly
when the name is absent, fails with Invalid Trit Value exactly when
(the name being present) the value is outside {-1,0,+1}, and otherwise
overwrites the binding; `get` fails with Use of Undeclared Variable exactly
when the name is absent. -/
theorem claim_C5_env_operations :
    (∀ (env : Env) name initial, env.containsVar name = true →
      env.declare name initial = .error (_rt_error (str "Redeclaration of Variable")
        (str "Variable '" ++ name ++ str "' is already declared."))) ∧
    (∀ (env : Env) name, env.containsVar name = false →
      env.declare name 0 = .ok ⟨env.vars ++ [(name, 0)]⟩) ∧
    (eval_stmt 1 (Statement.Decl (str "trit") [str "A", str "A"]) ⟨[]⟩ =
      .error (_rt_error (str "Redeclaration of Variable")
        (str "Variable '" ++ str "A" ++ str "' is already declared."))) ∧
    (∀ (env : Env) name value, env.containsVar name = false →
      env.set name value = .error (_rt_error (str "Assignment to Undeclared Variable")
        (str "Variable '" ++ name ++ str "' is not declared."))) ∧
    (∀ (env : Env) name value, env.containsVar name = true → ¬ isTrit value →
      env.set name value = .error (_rt_error (str "Invalid Trit Value")
        (str "Invalid trit value " ++ intStr value ++ str " assigned to '" ++ name
          ++ str "'; expected -1, 0, or +1."))) ∧
    (∀ (env : Env) name value, env.containsVar name = true → isTrit value →
      env.set name value = .ok ⟨setVar env.vars name value⟩ ∧
      (Env.mk (setVar env.vars name value)).get name = .ok value) ∧
    (∀ (env : Env) name, env.containsVar name = false →
      env.get name = .error (_rt_error (str "Use of Undeclared Variable")
        (str "Variable '" ++ name ++ str "' is not declared."))) ∧
    (∀ (env : Env) name, env.containsVar name = true → ∃ v, env.get name = .ok v) := by
  refine ⟨?_, ?_, by decide, ?_, ?_, ?_, ?_, ?_⟩
  · intro env name initial h
    simp [Env.declare, h]
  · intro env name h
    simp [Env.declare, h]
  · intro env name value h
    simp [Env.set, h]
  · intro env name value h hv
    have hv' : ¬ (value = -1 ∨ value = 0 ∨ value = 1) := by simpa [isTrit] using hv
    simp [Env.set, h, hv']
  · intro env name value h hv
    have hv' : value = -1 ∨ value = 0 ∨ value = 1 := by simpa [isTrit] using hv
    constructor
    · simp [Env.set, h, hv']
    · have hf := setVar_find name value env.vars (by simpa [Env.containsVar] using h)
      simp [Env.get, hf]
  · intro env name h
    have hf : env.vars.find? (fun p => p.1 == name) = none := by
      rw [List.find?_eq_none]
      intro x hx hbx
      have : env.vars.any (fun p => p.1 == name) = true :=
        List.any_eq_true.mpr ⟨x, hx, hbx⟩
      rw [Env.containsVar] at h
      simp [this] at h
    simp [Env.get, hf]
  · intro env name h
    cases hf : env.vars.find? (fun p => p.1 == name) with
    | none =>
      exfalso
      rw [List.find?_eq_none] at hf
      obtain ⟨v, hv⟩ : ∃ x, (name, x) ∈ env.vars := by
        simpa [Env.containsVar] using h
      exact absurd (by simp) (hf (name, v) hv)
    | some q =>
      exact ⟨q.2, by simp [Env.get, hf]⟩

/-- Witness for C5 at a concrete environment. -/
theorem claim_C5_env_operations_witness :
    (Env.mk []).declare (str "A") 0 = .ok ⟨[] ++ [(str "A", (0 : Int))]⟩ ∧
    (Env.mk [(str "A", 0)]).set (str "A") 5 =
      .error (_rt_error (str "Invalid Trit Value")
        (str "Invalid trit value " ++ intStr 5 ++ str " assigned to '" ++ str "A"
          ++ str "'; expected -1, 0, or +1.")) :=
  ⟨claim_C5_env_operations.2.1 ⟨[]⟩ (str "A") (by decide),
   claim_C5_env_operations.2.2.2.2.1 ⟨[(str "A", 0)]⟩ (str "A") 5 (by decide) (by decide)⟩

end TrineDSL

namespace TrineDSL

/-- `_check_trit` succeeds exactly on the three-valued domain and returns its
input. -/
theorem _check_trit_ok {x y : Int} (h : _check_trit x = .ok y) : y = x ∧ isTrit x := by
  unfold _check_trit at h
  split at h
  · exact ⟨(Except.ok.injEq _ _).mp h.symm, by assumption⟩
  · cases h

/-- `_check_trit` fails outside the domain. -/
theorem _check_trit_not_ok {x : Int} (hx : ¬ isTrit x) :
    _check_trit x = .error (_rt_error (str "Invalid Trit Value")
      (str "Invalid trit value " ++ intStr x ++ str ", expected -1, 0, or +1.")) := by
  rw [_check_trit, if_neg (by simpa [isTrit] using hx)]

theorem op_C_isTrit {x v : Int} (h : op_C x = .ok v) : isTrit v := by
  unfold op_C at h
  cases hc : _check_trit x with
  | error e => simp [hc] at h
  | ok y =>
    obtain ⟨rfl, hx⟩ := _check_trit_ok hc
    rw [hc] at h
    rcases hx with rfl | rfl | rfl <;> simp_all <;> simp [isTrit, ← h]

theorem op_N_isTrit {x v : Int} (h : op_N x = .ok v) : isTrit v := by
  unfold op_N at h
  cases hc : _check_trit x with
  | error e => simp [hc] at h
  | ok y => rw [hc] at h; simp at h; simp [isTrit, ← h]

theorem op_A_isTrit {x v : Int} (h : op_A x = .ok v) : isTrit v := by
  unfold op_A at h
  cases hc : _check_trit x with
  | error e => simp [hc] at h
  | ok y => rw [hc] at h; simp at h; simp [isTrit, ← h]

theorem op_TNOT_isTrit {x v : Int} (h : op_TNOT x = .ok v) : isTrit v := by
  unfold op_TNOT at h
  cases hc : _check_trit x with
  | error e => simp [hc] at h
  | ok y =>
    obtain ⟨rfl, hx⟩ := _check_trit_ok hc
    rw [hc] at h
    simp at h
    rcases hx with rfl | rfl | rfl <;> simp [isTrit, ← h]

theorem op_TAND_isTrit {a b v : Int} (h : op_TAND a b = .ok v) : isTrit v := by
  unfold op_TAND at h
  cases hca : _check_trit a with
  | error e => simp [hca] at h
  | ok x =>
    obtain ⟨rfl, hxa⟩ := _check_trit_ok hca
    rw [hca] at h
    cases hcb : _check_trit b with
    | error e => simp [hcb] at h
    | ok y =>
      obtain ⟨rfl, hxb⟩ := _check_trit_ok hcb
      rw [hcb] at h
      simp at h
      rw [← h]
      rcases hxa with rfl | rfl | rfl <;> rcases hxb with rfl | rfl | rfl <;> decide

theorem op_TOR_isTrit {a b v : Int} (h : op_TOR a b = .ok v) : isTrit v := by
  unfold op_TOR at h
  cases hca : _check_trit a with
  | error e => simp [hca] at h
  | ok x =>
    obtain ⟨rfl, hxa⟩ := _check_trit_ok hca
    rw [hca] at h
    cases hcb : _check_trit b with
    | error e => simp [hcb] at h
    | ok y =>
      obtain ⟨rfl, hxb⟩ := _check_trit_ok hcb
      rw [hcb] at h
      simp at h
      rw [← h]
      rcases hxa with rfl | rfl | rfl <;> rcases hxb with rfl | rfl | rfl <;> decide

theorem op_TNAND_isTrit {a b v : Int} (h : op_TNAND a b = .ok v) : isTrit v := by
  unfold op_TNAND at h
  cases ht : op_TAND a b with
  | error e => simp [ht] at h
  | ok w => rw [ht] at h; simp at h; exact op_TNOT_isTrit h

theorem op_TNOR_isTrit {a b v : Int} (h : op_TNOR a b = .ok v) : isTrit v := by
  unfold op_TNOR at h
  cases ht : op_TOR a b with
  | error e => simp [ht] at h
  | ok w => rw [ht] at h; simp at h; exact op_TNOT_isTrit h

theorem op_TXOR_isTrit {a b v : Int} (h : op_TXOR a b = .ok v) : isTrit v := by
  unfold op_TXOR at h
  cases hca : _check_trit a with
  | error e => simp [hca] at h
  | ok x =>
    obtain ⟨rfl, hxa⟩ := _check_trit_ok hca
    rw [hca] at h
    cases hcb : _check_trit b with
    | error e => simp [hcb] at h
    | ok y =>
      obtain ⟨rfl, hxb⟩ := _check_trit_ok hcb
      rw [hcb] at h
      simp at h
      rw [← h]
      rcases hxa with rfl | rfl | rfl <;> rcases hxb with rfl | rfl | rfl <;> decide

theorem op_TSUM_isTrit {a b v : Int} (h : op_TSUM a b = .ok v) : isTrit v := by
  unfold op_TSUM at h
  cases hca : _check_trit a with
  | error e => simp [hca] at h
  | ok x =>
    obtain ⟨rfl, hxa⟩ := _check_trit_ok hca
    rw [hca] at h
    cases hcb : _check_trit b with
    | error e => simp [hcb] at h
    | ok y =>
      obtain ⟨rfl, hxb⟩ := _check_trit_ok hcb
      rw [hcb] at h
      simp at h
      rw [← h]
      rcases hxa with rfl | rfl | rfl <;> rcases hxb with rfl | rfl | rfl <;> decide

theorem op_TCARRY_isTrit {a b v : Int} (h : op_TCARRY a b = .ok v) : isTrit v := by
  unfold op_TCARRY at h
  cases hca : _check_trit a with
  | error e => simp [hca] at h
  | ok x =>
    obtain ⟨rfl, hxa⟩ := _check_trit_ok hca
    rw [hca] at h
    cases hcb : _check_trit b with
    | error e => simp [hcb] at h
    | ok y =>
      obtain ⟨rfl, hxb⟩ := _check_trit_ok hcb
      rw [hcb] at h
      simp at h
      rw [← h]
      rcases hxa with rfl | rfl | rfl <;> rcases hxb with rfl | rfl | rfl <;> decide

/-- Any value the dispatcher returns lies in the three-valued domain.  The
proof cases on which of the eleven names (if any) matches and on the shape
of the argument list; each branch of `apply_func` then reduces
definitionally to one operator application or to an error. -/
theorem apply_func_ok_isTrit (name : Str) (args : List Int) (v : Int)
    (h : apply_func name args = .ok v) : isTrit v := by
  by_cases h1 : name = str "C"
  · subst h1
    rcases args with _ | ⟨a, _ | ⟨b, t⟩⟩
    · exact Except.noConfusion h
    · exact op_C_isTrit h
    · exact Except.noConfusion h
  by_cases h2 : name = str "N"
  · subst h2
    rcases args with _ | ⟨a, _ | ⟨b, t⟩⟩
    · exact Except.noConfusion h
    · exact op_N_isTrit h
    · exact Except.noConfusion h
  by_cases h3 : name = str "A"
  · subst h3
    rcases args with _ | ⟨a, _ | ⟨b, t⟩⟩
    · exact Except.noConfusion h
    · exact op_A_isTrit h
    · exact Except.noConfusion h
  by_cases h4 : name = str "TNOT"
  · subst h4
    rcases args with _ | ⟨a, _ | ⟨b, t⟩⟩
    · exact Except.noConfusion h
    · exact op_TNOT_isTrit h
    · exact Except.noConfusion h
  all_goals
    unfold apply_func at h
    rw [if_neg h1, if_neg h2, if_neg h3, if_neg h4] at h
  by_cases h5 : name = str "TAND"
  · subst h5
    rw [if_pos rfl] at h
    rcases args with _ | ⟨a, _ | ⟨b, _ | ⟨c, t⟩⟩⟩
    · exact Except.noConfusion h
    · exact Except.noConfusion h
    · exact op_TAND_isTrit h
    · exact Except.noConfusion h
  rw [if_neg h5] at h
  by_cases h6 : name = str "TOR"
  · subst h6
    rw [if_pos rfl] at h
    rcases args with _ | ⟨a, _ | ⟨b, _ | ⟨c, t⟩⟩⟩
    · exact Except.noConfusion h
    · exact Except.noConfusion h
    · exact op_TOR_isTrit h
    · exact Except.noConfusion h
  rw [if_neg h6] at h
  by_cases h7 : name = str "TNAND"
  · subst h7
    rw [if_pos rfl] at h
    rcases args with _ | ⟨a, _ | ⟨b, _ | ⟨c, t⟩⟩⟩
    · exact Except.noConfusion h
    · exact Except.noConfusion h
    · exact op_TNAND_isTrit h
    · exact Except.noConfusion h
  rw [if_neg h7] at h
  by_cases h8 : name = str "TNOR"
  · subst h8
    rw [if_pos rfl] at h
    rcases args with _ | ⟨a, _ | ⟨b, _ | ⟨c, t⟩⟩⟩
    · exact Except.noConfusion h
    · exact Except.noConfusion h
    · exact op_TNOR_isTrit h
    · exact Except.noConfusion h
  rw [if_neg h8] at h
  by_cases h9 : name = str "TXOR"
  · subst h9
    rw [if_pos rfl] at h
    rcases args with _ | ⟨a, _ | ⟨b, _ | ⟨c, t⟩⟩⟩
    · exact Except.noConfusion h
    · exact Except.noConfusion h
    · exact op_TXOR_isTrit h
    · exact Except.noConfusion h
  rw [if_neg h9] at h
  by_cases h10 : name = str "TSUM"
  · subst h10
    rw [if_pos rfl] at h
    rcases args with _ | ⟨a, _ | ⟨b, _ | ⟨c, t⟩⟩⟩
    · exact Except.noConfusion h
    · exact Except.noConfusion h
    · exact op_TSUM_isTrit h
    · exact Except.noConfusion h
  rw [if_neg h10] at h
  by_cases h11 : name = str "TCARRY"
  · subst h11
    rw [if_pos rfl] at h
    rcases args with _ | ⟨a, _ | ⟨b, _ | ⟨c, t⟩⟩⟩
    · exact Except.noConfusion h
    · exact Except.noConfusion h
    · exact op_TCARRY_isTrit h
    · exact Except.noConfusion h
  rw [if_neg h11] at h
  exact Except.noConfusion h

end TrineDSL

namespace TrineDSL

/-- Updating a present key with a domain value keeps every stored value in
the domain. -/
theorem setVar_isTrit (name : Str) (value : Int) (hv : isTrit value) :
    ∀ l : List (Str × Int), (∀ p ∈ l, isTrit p.2) →
      ∀ p ∈ setVar l name value, isTrit p.2 := by
  intro l
  induction l with
  | nil => simp [setVar]
  | cons hd tl ih =>
    obtain ⟨k, w⟩ := hd
    intro hl p hp
    by_cases hk : k = name
    · rw [show setVar ((k, w) :: tl) name value = (k, value) :: tl from by
        simp [setVar, hk]] at hp
      rcases List.mem_cons.mp hp with rfl | hmem
      · exact hv
      · exact hl p (List.mem_cons_of_mem _ hmem)
    · rw [show setVar ((k, w) :: tl) name value = (k, w) :: setVar tl name value from by
        simp [setVar, hk]] at hp
      rcases List.mem_cons.mp hp with rfl | hmem
      · exact hl (k, w) (List.mem_cons_self _ _)
      · exact ih (fun q hq => hl q (List.mem_cons_of_mem _ hq)) p hmem

/-- `Env.set` preserves the domain invariant (it validates the value). -/
theorem set_EnvOK {env env' : Env} {name : Str} {value : Int}
    (h : env.set name value = .ok env') (hok : EnvOK env) : EnvOK env' := by
  unfold Env.set at h
  split at h
  · exact Except.noConfusion h
  · split at h
    · exact Except.noConfusion h
    · rename_i hnv
      obtain rfl := (Except.ok.injEq _ _).mp h
      intro p hp
      refine setVar_isTrit name value ?_ env.vars hok p hp
      simpa [isTrit] using not_not.mp hnv

/-- `Env.declare` with initial value 0 preserves the domain invariant. -/
theorem declare_EnvOK {env env' : Env} {name : Str}
    (h : env.declare name 0 = .ok env') (hok : EnvOK env) : EnvOK env' := by
  unfold Env.declare at h
  split at h
  · exact Except.noConfusion h
  · obtain rfl := (Except.ok.injEq _ _).mp h
    intro p hp
    rcases List.mem_append.mp hp with hmem | hmem
    · exact hok p hmem
    · rcases List.mem_singleton.mp hmem with rfl
      exact Or.inr (Or.inl rfl)

/-- The declaration loop preserves the domain invariant. -/
theorem declNames_EnvOK : ∀ (names : List Str) (env env' : Env),
    declNames names env = .ok env' → EnvOK env → EnvOK env' := by
  intro names
  induction names with
  | nil =>
    intro env env' h hok
    obtain rfl := (Except.ok.injEq _ _).mp h
    exact hok
  | cons n ns ih =>
    intro env env' h hok
    unfold declNames at h
    cases hd : env.declare n 0 with
    | error e => rw [hd] at h; exact Except.noConfusion h
    | ok env2 =>
      rw [hd] at h
      exact ih env2 env' h (declare_EnvOK hd hok)

/-- One statement preserves the domain invariant. -/
theorem eval_stmt_EnvOK {fuel : Nat} {stmt : Statement} {env env' : Env}
    (h : eval_stmt fuel stmt env = .ok env') (hok : EnvOK env) : EnvOK env' := by
  cases stmt with
  | Decl type_name names =>
    simp only [eval_stmt] at h
    by_cases ht : type_name ≠ str "trit"
    · rw [if_pos ht] at h
      exact Except.noConfusion h
    · rw [if_neg ht] at h
      exact declNames_EnvOK names env env' h hok
  | Assign name e =>
    simp only [eval_stmt] at h
    cases he : eval_expr env fuel e with
    | error err => rw [he] at h; exact Except.noConfusion h
    | ok v => rw [he] at h; exact set_EnvOK h hok

/-- The statement loop preserves the domain invariant. -/
theorem eval_stmts_EnvOK {fuel : Nat} : ∀ (ss : List Statement) (env env' : Env),
    eval_stmts fuel ss env = .ok env' → EnvOK env → EnvOK env' := by
  intro ss
  induction ss with
  | nil =>
    intro env env' h hok
    obtain rfl := (Except.ok.injEq _ _).mp h
    exact hok
  | cons s rest ih =>
    intro env env' h hok
    unfold eval_stmts at h
    cases hs : eval_stmt fuel s env with
    | error e => rw [hs] at h; exact Except.noConfusion h
    | ok env2 => rw [hs] at h; exact ih env2 env' h (eval_stmt_EnvOK hs hok)

/-- C10: for every program and every starting environment whose values all
lie in {-1,0,+1}, every environment reachable by statement evaluation —
including the final environment of a successful run, and the case of a
fresh environment — again maps each variable into {-1,0,+1}; moreover every
value the operator dispatcher returns lies in {-1,0,+1}. -/
theorem claim_C10_trit_invariant :
    (∀ (fuel : Nat) (stmt : Statement) (env env' : Env), EnvOK env →
      eval_stmt fuel stmt env = .ok env' → EnvOK env') ∧
    (∀ (fuel : Nat) (prog : Program) (env env' : Env), EnvOK env →
      eval_program fuel prog (some env) = .ok env' → EnvOK env') ∧
    (∀ (fuel : Nat) (prog : Program) (env' : Env),
      eval_program fuel prog none = .ok env' → EnvOK env') ∧
    (∀ (name : Str) (args : List Int) (v : Int), apply_func name args = .ok v → isTrit v) := by
  refine ⟨?_, ?_, ?_, ?_⟩
  · intro fuel stmt env env' hok h
    exact eval_stmt_EnvOK h hok
  · intro fuel prog env env' hok h
    exact eval_stmts_EnvOK prog.statements env env' h hok
  · intro fuel prog env' h
    exact eval_stmts_EnvOK prog.statements ⟨[]⟩ env' h (by intro p hp; cases hp)
  · intro name args v h
    exact apply_func_ok_isTrit name args v h

/-- Witness for C10 at a concrete statement and environment. -/
theorem claim_C10_trit_invariant_witness : EnvOK ⟨[(str "A", 0)]⟩ :=
  claim_C10_trit_invariant.1 1 (Statement.Decl (str "trit") [str "A"]) ⟨[]⟩
    ⟨[(str "A", 0)]⟩ (by intro p hp; cases hp) (by decide)

end TrineDSL

namespace TrineDSL

/-- C7: a run is a pure, deterministic function of the source text and the
optional prior environment: equal inputs give equal outcomes, the omitted
environment behaves exactly like a fresh empty one, and the spec's TSUM /
TCARRY example always produces the same final variable map. -/
theorem claim_C7_run_pure_deterministic :
    (∀ (src : Str) (envOpt : Option Env), run_source src envOpt = run_source src envOpt) ∧
    (∀ src : Str, run_source src none = run_source src (some ⟨[]⟩)) ∧
    run_source
        (str "trit A, B; A = -1; B = +1; trit S, C; S = TSUM(A, B); C = TCARRY(A, B);")
        none =
      .ok ⟨[(str "A", -1), (str "B", 1), (str "S", 0), (str "C", 0)]⟩ := by
  refine ⟨fun src envOpt => rfl, ?_, by decide⟩
  intro src
  unfold run_source
  cases parse_program src with
  | error e => rfl
  | ok prog => rfl

/-- C2 counterexample: the zero-argument call `FOO()` is accepted by the
parser (the failure is a Runtime-stage one) but fails with Unknown
Function, not with a Wrong Number of Arguments (arity) error, refuting
"for any function name". -/
theorem claim_C2_counterexample :
    resultStage (run_source (str "trit A; A = FOO();") none) = str "Runtime Error" ∧
    resultCause (run_source (str "trit A; A = FOO();") none) = str "Unknown Function" ∧
    resultCause (run_source (str "trit A; A = FOO();") none) ≠
      str "Wrong Number of Arguments" := by decide

/-- C2 (amended): every call expression with an empty argument list `()` is
accepted by the parser; evaluating a zero-argument call of one of the
eleven defined function names fails with a Wrong Number of Arguments error
from the dispatcher, while a zero-argument call of any other name fails
with the dispatcher's Unknown Function error. -/
theorem claim_C2_zero_arg_calls :
    (∀ (fname tname : Str) (p1 p2 p3 p4 p5 p6 p7 : Nat),
      parse_program_toks (str "") 20
        [⟨TokenKind.IDENT, tname, p1⟩, ⟨TokenKind.EQUAL, str "=", p2⟩,
         ⟨TokenKind.IDENT, fname, p3⟩, ⟨TokenKind.LPAREN, str "(", p4⟩,
         ⟨TokenKind.RPAREN, str ")", p5⟩, ⟨TokenKind.SEMI, str ";", p6⟩,
         ⟨TokenKind.EOF, [], p7⟩] =
        .ok [Statement.Assign tname (Expr.FuncCall fname [])]) ∧
    parse_program (str "trit A; A = TAND();") =
      .ok ⟨[Statement.Decl (str "trit") [str "A"],
            Statement.Assign (str "A") (Expr.FuncCall (str "TAND") [])]⟩ ∧
    (∀ p ∈ FUNC_ARITIES, apply_func p.1 [] = .error (_arity p.1 p.2 0)) ∧
    (∀ name, name ∉ FUNC_ARITIES.map Prod.fst →
      apply_func name [] = .error (_rt_error (str "Unknown Function")
        (str "Function '" ++ name ++ str "' is not defined."))) ∧
    run_source (str "trit A; A = TAND();") none = .error (_arity (str "TAND") 2 0) := by
  refine ⟨fun fname tname p1 p2 p3 p4 p5 p6 p7 => rfl, rfl, ?_, ?_, by decide⟩
  · intro p hp
    fin_cases hp <;> decide
  · exact fun name h => apply_func_unknown name [] h

/-- Witness for C2 at concrete names. -/
theorem claim_C2_zero_arg_calls_witness :
    apply_func (str "TSUM") [] = .error (_arity (str "TSUM") 2 0) ∧
    apply_func (str "BAR") [] = .error (_rt_error (str "Unknown Function")
      (str "Function '" ++ str "BAR" ++ str "' is not defined.")) :=
  ⟨claim_C2_zero_arg_calls.2.2.1 (str "TSUM", 2) (by decide),
   claim_C2_zero_arg_calls.2.2.2.1 (str "BAR") (by decide)⟩

end TrineDSL

namespace TrineDSL

/-- Missing semicolon after a declaration statement: the fixed diagnostic at
the offending token. -/
theorem parse_statement_missing_semi_decl (src : Str) (fuel : Nat) (toks : List Token)
    (stmt : Statement) (rest : List Token)
    (hkind : (currentTok toks).kind = TokenKind.KW_TRIT)
    (hdecl : parse_decl_stmt src fuel toks = .ok (stmt, rest))
    (hsemi : (currentTok rest).kind ≠ TokenKind.SEMI) :
    parse_statement src fuel toks =
      .error (mkParseError src (currentTok rest).pos (str "Missing Semicolon")
        (str "Expected ';' at the end of the statement.")) := by
  unfold parse_statement
  rw [if_pos hkind, hdecl]
  exact if_pos hsemi

/-- Missing semicolon after an assignment statement: the fixed diagnostic at
the offending token. -/
theorem parse_statement_missing_semi_assign (src : Str) (fuel : Nat) (toks : List Token)
    (stmt : Statement) (rest : List Token)
    (hkind : (currentTok toks).kind = TokenKind.IDENT)
    (hassign : parse_assign_stmt src fuel toks = .ok (stmt, rest))
    (hsemi : (currentTok rest).kind ≠ TokenKind.SEMI) :
    parse_statement src fuel toks =
      .error (mkParseError src (currentTok rest).pos (str "Missing Semicolon")
        (str "Expected ';' at the end of the statement.")) := by
  have h1 : ¬ ((currentTok toks).kind = TokenKind.KW_TRIT) := by rw [hkind]; decide
  unfold parse_statement
  rw [if_neg h1, if_pos hkind, hassign]
  exact if_pos hsemi

/-- Missing `=` after the identifier of an assignment: the fixed diagnostic
at the offending token. -/
theorem parse_assign_missing_eq (src : Str) (fuel : Nat) (toks : List Token)
    (hkind : (currentTok toks).kind = TokenKind.IDENT)
    (heq : (currentTok toks.tail).kind ≠ TokenKind.EQUAL) :
    parse_assign_stmt src fuel toks =
      .error (mkParseError src (currentTok toks.tail).pos
        (str "Expected '=' After Identifier")
        (str "Expected '=' after identifier in assignment.")) := by
  have h1 : ¬ ((currentTok toks).kind ≠ TokenKind.IDENT) := by rw [hkind]; decide
  unfold parse_assign_stmt
  rw [if_neg h1]
  exact if_pos heq

/-- Missing `)` after a call's arguments: the fixed diagnostic at the
offending token. -/
theorem parse_expr_missing_rparen (src : Str) (fuel : Nat) (toks : List Token)
    (args : List Expr) (rest : List Token)
    (hkind : (currentTok toks).kind = TokenKind.IDENT)
    (hlp : (currentTok toks.tail).kind = TokenKind.LPAREN)
    (hargs : (if (currentTok toks.tail.tail).kind ≠ TokenKind.RPAREN then
        parse_args src fuel toks.tail.tail
      else .ok ([], toks.tail.tail)) = .ok (args, rest))
    (hrp : (currentTok rest).kind ≠ TokenKind.RPAREN) :
    parse_expr src (fuel + 1) toks =
      .error (mkParseError src (currentTok rest).pos (str "Missing Closing Parenthesis")
        (str "Expected ')' to close function call arguments.")) := by
  have h1 : ¬ ((currentTok toks).kind = TokenKind.TRIT) := by rw [hkind]; decide
  unfold parse_expr
  rw [if_neg h1, if_pos hkind, if_pos hlp, hargs]
  exact if_neg hrp

/-- Unexpected token at statement start: the diagnostic reports the
offending token's text and kind. -/
theorem parse_statement_bad_start (src : Str) (fuel : Nat) (toks : List Token)
    (h1 : (currentTok toks).kind ≠ TokenKind.KW_TRIT)
    (h2 : (currentTok toks).kind ≠ TokenKind.IDENT) :
    parse_statement src fuel toks =
      .error (mkParseError src (currentTok toks).pos
        (str "Unexpected Token at Statement Start")
        (str "Unexpected token '" ++ (currentTok toks).value ++ str "' ("
          ++ kindStr (currentTok toks).kind ++ str ") at the beginning of a statement.")) := by
  unfold parse_statement
  rw [if_neg h1, if_neg h2]

/-- C1 counterexample: the Missing Semicolon diagnostic for
`"trit A A = 0;"` (offending token: the second `A`, an IDENT) carries the
fixed message "Expected ';' at the end of the statement.", which does not
mention the offending token's text `A` (nor its kind), refuting "every one
of these four diagnostics reports the actual offending token's kind and
text in its message". -/
theorem claim_C1_counterexample :
    run_source (str "trit A A = 0;") none =
      .error (mkParseError (str "trit A A = 0;") 7 (str "Missing Semicolon")
        (str "Expected ';' at the end of the statement.")) ∧
    'A' ∉ (mkParseError (str "trit A A = 0;") 7 (str "Missing Semicolon")
        (str "Expected ';' at the end of the statement.")).description := by decide

/-- C1 (amended): the four parse-failure situations produce four pairwise
distinct diagnostic cause labels, each positioned at the offending token;
the unexpected-token-at-statement-start diagnostic reports the offending
token's kind and text in its message, while the missing `;`, missing `=`
and missing `)` diagnostics carry fixed human-readable expectation
messages that do not repeat the offending token. -/
theorem claim_C1_parse_diagnostics :
    (str "Missing Semicolon" ≠ str "Expected '=' After Identifier" ∧
     str "Missing Semicolon" ≠ str "Missing Closing Parenthesis" ∧
     str "Missing Semicolon" ≠ str "Unexpected Token at Statement Start" ∧
     str "Expected '=' After Identifier" ≠ str "Missing Closing Parenthesis" ∧
     str "Expected '=' After Identifier" ≠ str "Unexpected Token at Statement Start" ∧
     str "Missing Closing Parenthesis" ≠ str "Unexpected Token at Statement Start") ∧
    (∀ (src : Str) (fuel : Nat) (toks : List Token) (stmt : Statement) (rest : List Token),
      (currentTok toks).kind = TokenKind.IDENT →
      parse_assign_stmt src fuel toks = .ok (stmt, rest) →
      (currentTok rest).kind ≠ TokenKind.SEMI →
      parse_statement src fuel toks =
        .error (mkParseError src (currentTok rest).pos (str "Missing Semicolon")
          (str "Expected ';' at the end of the statement."))) ∧
    (∀ (src : Str) (fuel : Nat) (toks : List Token) (stmt : Statement) (rest : List Token),
      (currentTok toks).kind = TokenKind.KW_TRIT →
      parse_decl_stmt src fuel toks = .ok (stmt, rest) →
      (currentTok rest).kind ≠ TokenKind.SEMI →
      parse_statement src fuel toks =
        .error (mkParseError src (currentTok rest).pos (str "Missing Semicolon")
          (str "Expected ';' at the end of the statement."))) ∧
    (∀ (src : Str) (fuel : Nat) (toks : List Token),
      (currentTok toks).kind = TokenKind.IDENT →
      (currentTok toks.tail).kind ≠ TokenKind.EQUAL →
      parse_assign_stmt src fuel toks =
        .error (mkParseError src (currentTok toks.tail).pos
          (str "Expected '=' After Identifier")
          (str "Expected '=' after identifier in assignment."))) ∧
    (∀ (src : Str) (fuel : Nat) (toks : List Token) (args : List Expr) (rest : List Token),
      (currentTok toks).kind = TokenKind.IDENT →
      (currentTok toks.tail).kind = TokenKind.LPAREN →
      (if (currentTok toks.tail.tail).kind ≠ TokenKind.RPAREN then
          parse_args src fuel toks.tail.tail
        else .ok ([], toks.tail.tail)) = .ok (args, rest) →
      (currentTok rest).kind ≠ TokenKind.RPAREN →
      parse_expr src (fuel + 1) toks =
        .error (mkParseError src (currentTok rest).pos (str "Missing Closing Parenthesis")
          (str "Expected ')' to close function call arguments."))) ∧
    (∀ (src : Str) (fuel : Nat) (toks : List Token),
      (currentTok toks).kind ≠ TokenKind.KW_TRIT →
      (currentTok toks).kind ≠ TokenKind.IDENT →
      parse_statement src fuel toks =
        .error (mkParseError src (currentTok toks).pos
          (str "Unexpected Token at Statement Start")
          (str "Unexpected token '" ++ (currentTok toks).value ++ str "' ("
            ++ kindStr (currentTok toks).kind ++ str ") at the beginning of a statement."))) ∧
    run_source (str "trit A A = 0;") none =
      .error (mkParseError (str "trit A A = 0;") 7 (str "Missing Semicolon")
        (str "Expected ';' at the end of the statement.")) ∧
    run_source (str "trit A; A 0;") none =
      .error (mkParseError (str "trit A; A 0;") 10 (str "Expected '=' After Identifier")
        (str "Expected '=' after identifier in assignment.")) ∧
    run_source (str "trit A; A = TAND(A, A;") none =
      .error (mkParseError (str "trit A; A = TAND(A, A;") 21
        (str "Missing Closing Parenthesis")
        (str "Expected ')' to close function call arguments.")) ∧
    run_source (str "trit A; = 0;") none =
      .error (mkParseError (str "trit A; = 0;") 8
        (str "Unexpected Token at Statement Start")
        (str "Unexpected token '" ++ str "=" ++ str "' (" ++ str "EQUAL"
          ++ str ") at the beginning of a statement.")) := by
  exact ⟨by decide, parse_statement_missing_semi_assign, parse_statement_missing_semi_decl,
    parse_assign_missing_eq, parse_expr_missing_rparen, parse_statement_bad_start,
    by decide, by decide, by decide, by decide⟩

/-- Witness for C1: the general missing-semicolon and statement-start
clauses applied at concrete token streams. -/
theorem claim_C1_parse_diagnostics_witness :
    parse_statement (str "A = 0 B") 9
        [⟨TokenKind.IDENT, str "A", 0⟩, ⟨TokenKind.EQUAL, str "=", 2⟩,
         ⟨TokenKind.TRIT, str "0", 4⟩, ⟨TokenKind.IDENT, str "B", 6⟩,
         ⟨TokenKind.EOF, [], 7⟩] =
      .error (mkParseError (str "A = 0 B") 6 (str "Missing Semicolon")
        (str "Expected ';' at the end of the statement.")) ∧
    parse_statement (str "= 0;") 6
        [⟨TokenKind.EQUAL, str "=", 0⟩, ⟨TokenKind.TRIT, str "0", 2⟩,
         ⟨TokenKind.SEMI, str ";", 3⟩, ⟨TokenKind.EOF, [], 4⟩] =
      .error (mkParseError (str "= 0;") 0 (str "Unexpected Token at Statement Start")
        (str "Unexpected token '" ++ str "=" ++ str "' (" ++ kindStr TokenKind.EQUAL
          ++ str ") at the beginning of a statement.")) :=
  ⟨claim_C1_parse_diagnostics.2.1 (str "A = 0 B") 9
      [⟨TokenKind.IDENT, str "A", 0⟩, ⟨TokenKind.EQUAL, str "=", 2⟩,
       ⟨TokenKind.TRIT, str "0", 4⟩, ⟨TokenKind.IDENT, str "B", 6⟩,
       ⟨TokenKind.EOF, [], 7⟩]
      (Statement.Assign (str "A") (Expr.TritLiteral 0))
      [⟨TokenKind.IDENT, str "B", 6⟩, ⟨TokenKind.EOF, [], 7⟩]
      rfl rfl (by decide),
   claim_C1_parse_diagnostics.2.2.2.2.2.1 (str "= 0;") 6
      [⟨TokenKind.EQUAL, str "=", 0⟩, ⟨TokenKind.TRIT, str "0", 2⟩,
       ⟨TokenKind.SEMI, str ";", 3⟩, ⟨TokenKind.EOF, [], 4⟩]
      (by decide) (by decide)⟩

end TrineDSL

namespace TrineDSL

/-- `Nat.digitChar` never yields a newline. -/
theorem digitChar_ne_newline (n : Nat) : Nat.digitChar n ≠ '\n' := by
  by_cases h16 : n < 16
  · interval_cases n <;> decide
  · have e0 : n ≠ 0 := by omega
    have e1 : n ≠ 1 := by omega
    have e2 : n ≠ 2 := by omega
    have e3 : n ≠ 3 := by omega
    have e4 : n ≠ 4 := by omega
    have e5 : n ≠ 5 := by omega
    have e6 : n ≠ 6 := by omega
    have e7 : n ≠ 7 := by omega
    have e8 : n ≠ 8 := by omega
    have e9 : n ≠ 9 := by omega
    have e10 : n ≠ 10 := by omega
    have e11 : n ≠ 11 := by omega
    have e12 : n ≠ 12 := by omega
    have e13 : n ≠ 13 := by omega
    have e14 : n ≠ 14 := by omega
    have e15 : n ≠ 15 := by omega
    have hstar : Nat.digitChar n = '*' := by
      unfold Nat.digitChar
      rw [if_neg e0, if_neg e1, if_neg e2, if_neg e3, if_neg e4, if_neg e5,
        if_neg e6, if_neg e7, if_neg e8, if_neg e9, if_neg e10, if_neg e11,
        if_neg e12, if_neg e13, if_neg e14, if_neg e15]
    rw [hstar]
    decide

/-- The fuelled decimal renderer never emits a newline. -/
theorem natDigitsAux_no_newline : ∀ (fuel n : Nat), '\n' ∉ natDigitsAux fuel n := by
  intro fuel
  induction fuel with
  | zero => intro n; simp [natDigitsAux]
  | succ f ih =>
    intro n
    simp only [natDigitsAux]
    split
    · intro hmem
      exact (digitChar_ne_newline n) (List.mem_singleton.mp hmem).symm
    · intro hmem
      rcases List.mem_append.mp hmem with h | h
      · exact ih (n / 10) h
      · exact (digitChar_ne_newline (n % 10)) (List.mem_singleton.mp h).symm

/-- Python's decimal rendering of a line number never contains a newline. -/
theorem natDigits_no_newline (n : Nat) : '\n' ∉ natDigits n :=
  natDigitsAux_no_newline (n + 1) n

/-- Splitting a newline-free text yields exactly that line. -/
theorem splitOnNewline_no_newline : ∀ a : Str, '\n' ∉ a → splitOnNewline a = [a] := by
  intro a
  induction a with
  | nil => intro _; rfl
  | cons c cs ih =>
    intro h
    have hc : ¬ c = '\n' := fun hc => h (hc ▸ List.mem_cons_self _ _)
    have hcs : '\n' ∉ cs := fun hm => h (List.mem_cons_of_mem _ hm)
    simp only [splitOnNewline, if_neg hc, ih hcs]

/-- Splitting at the first newline after a newline-free head. -/
theorem splitOnNewline_append_newline :
    ∀ a : Str, '\n' ∉ a → ∀ b : Str, splitOnNewline (a ++ '\n' :: b) = a :: splitOnNewline b := by
  intro a
  induction a with
  | nil => intro _ b; simp [splitOnNewline]
  | cons c cs ih =>
    intro h b
    have hc : ¬ c = '\n' := fun hc => h (hc ▸ List.mem_cons_self _ _)
    have hcs : '\n' ∉ cs := fun hm => h (List.mem_cons_of_mem _ hm)
    simp only [List.cons_append, splitOnNewline, List.append_eq, if_neg hc]
    rw [ih hcs b]

/-- Any diagnostic whose stored fields are single-line formats for display
as exactly three lines: `<Stage>: <Cause>`, then
`    in line <line>: <source line text>`, then `    <description>`. -/
theorem format_three_lines_of_fields (e : TrineDSLError)
    (h1 : '\n' ∉ e.error_type) (h2 : '\n' ∉ e.error_statement)
    (h3 : '\n' ∉ e.line_text) (h4 : '\n' ∉ e.description) :
    splitOnNewline (formatError e) =
      [e.error_type ++ str ": " ++ e.error_statement,
       str "    in line " ++ natDigits e.line ++ str ": " ++ e.line_text,
       str "    " ++ e.description] := by
  have hl1 : '\n' ∉ e.error_type ++ str ": " ++ e.error_statement := by
    simp only [List.mem_append, not_or]
    exact ⟨⟨h1, by decide⟩, h2⟩
  have hl2 : '\n' ∉ str "    in line " ++ natDigits e.line ++ str ": " ++ e.line_text := by
    simp only [List.mem_append, not_or]
    exact ⟨⟨⟨by decide, natDigits_no_newline e.line⟩, by decide⟩, h3⟩
  have hl3 : '\n' ∉ str "    " ++ e.description := by
    simp only [List.mem_append, not_or]
    exact ⟨by decide, h4⟩
  unfold formatError
  rw [splitOnNewline_append_newline _ hl1, splitOnNewline_append_newline _ hl2,
    splitOnNewline_no_newline _ hl3]

end TrineDSL

namespace TrineDSL

/-- Peeling a consed token off a successful `Except.map`. -/
theorem map_cons_ok {tok : Token} {x : Except TrineDSLError (List Token)}
    {toks : List Token} (h : x.map (tok :: ·) = .ok toks) :
    ∃ ts, x = .ok ts ∧ toks = tok :: ts := by
  cases x with
  | error e => exact Except.noConfusion h
  | ok ts => exact ⟨ts, rfl, ((Except.ok.injEq _ _).mp h).symm⟩

/-- Unfolding lemma for the lexer loop at the end of input. -/
theorem tokenizeAux_nil (src : Str) (f : Nat) :
    tokenizeAux src (f + 1) [] = .ok [⟨TokenKind.EOF, [], src.length⟩] := rfl

/-- Unfolding lemma for one step of the lexer loop. -/
theorem tokenizeAux_cons (src : Str) (f : Nat) (ch : Char) (cs : Str) :
    tokenizeAux src (f + 1) (ch :: cs) =
      (if ch.isWhitespace then
        tokenizeAux src f cs
      else if ch = '/' && cs.head? = some '/' then
        tokenizeAux src f (cs.tail.dropWhile (fun c => c ≠ '\n'))
      else if ch = '=' then
        (tokenizeAux src f cs).map (⟨TokenKind.EQUAL, ['='], tokOffset src (ch :: cs)⟩ :: ·)
      else if ch = ',' then
        (tokenizeAux src f cs).map (⟨TokenKind.COMMA, [','], tokOffset src (ch :: cs)⟩ :: ·)
      else if ch = ';' then
        (tokenizeAux src f cs).map (⟨TokenKind.SEMI, [';'], tokOffset src (ch :: cs)⟩ :: ·)
      else if ch = '(' then
        (tokenizeAux src f cs).map (⟨TokenKind.LPAREN, ['('], tokOffset src (ch :: cs)⟩ :: ·)
      else if ch = ')' then
        (tokenizeAux src f cs).map (⟨TokenKind.RPAREN, [')'], tokOffset src (ch :: cs)⟩ :: ·)
      else if ch = '+' || ch = '-' || ch.isDigit then
        match scanDigitRun src (tokOffset src (ch :: cs)) ch cs with
        | .error e => .error e
        | .ok (tok, rest2) => (tokenizeAux src f rest2).map (tok :: ·)
      else if _is_ident_start ch then
        if ch :: cs.takeWhile _is_ident_part = str "trit" then
          (tokenizeAux src f (cs.dropWhile _is_ident_part)).map
            (⟨TokenKind.KW_TRIT, ch :: cs.takeWhile _is_ident_part, tokOffset src (ch :: cs)⟩ :: ·)
        else
          (tokenizeAux src f (cs.dropWhile _is_ident_part)).map
            (⟨TokenKind.IDENT, ch :: cs.takeWhile _is_ident_part, tokOffset src (ch :: cs)⟩ :: ·)
      else
        .error (mkLexError src (tokOffset src (ch :: cs)) (str "Unexpected Character")
          ('\'' :: ch :: str "' is an unexpected character."))) := rfl

/-- A successful digit-run scan only ever yields the three legal literals. -/
theorem scanDigitRun_ok_value {src : Str} {i : Nat} {ch : Char} {cs : Str}
    {tok : Token} {rest2 : Str}
    (h : scanDigitRun src i ch cs = .ok (tok, rest2)) :
    tok.value = str "-1" ∨ tok.value = str "0" ∨ tok.value = str "+1" := by
  simp only [scanDigitRun] at h
  split at h
  · split at h
    · split at h
      · rename_i hcond
        obtain ⟨rfl, rfl⟩ := Prod.mk.injEq .. ▸ (Except.ok.injEq _ _).mp h
        exact or_assoc.mp (by simpa using hcond)
      · exact Except.noConfusion h
    · exact Except.noConfusion h
  · split at h
    · rename_i hcond
      obtain ⟨rfl, rfl⟩ := Prod.mk.injEq .. ▸ (Except.ok.injEq _ _).mp h
      exact or_assoc.mp (by simpa using hcond)
    · exact Except.noConfusion h

/-- Every `TRIT` token the lexer loop emits has text `-1`, `0` or `+1`. -/
theorem tokenizeAux_trit_values (src : Str) :
    ∀ (fuel : Nat) (rest : Str) (toks : List Token),
      tokenizeAux src fuel rest = .ok toks →
      ∀ t ∈ toks, t.kind = TokenKind.TRIT →
        t.value = str "-1" ∨ t.value = str "0" ∨ t.value = str "+1" := by
  intro fuel
  induction fuel with
  | zero =>
    intro rest toks h
    exact absurd h (by simp [tokenizeAux])
  | succ f ih =>
    intro rest toks h t ht hk
    cases rest with
    | nil =>
      rw [tokenizeAux_nil] at h
      obtain rfl := (Except.ok.injEq _ _).mp h
      rcases List.mem_singleton.mp ht with rfl
      exact TokenKind.noConfusion hk
    | cons ch cs =>
      rw [tokenizeAux_cons] at h
      by_cases c1 : ch.isWhitespace = true
      · rw [if_pos c1] at h
        exact ih cs toks h t ht hk
      rw [if_neg c1] at h
      by_cases c2 : (ch = '/' && cs.head? = some '/') = true
      · rw [if_pos c2] at h
        exact ih _ toks h t ht hk
      rw [if_neg c2] at h
      by_cases c3 : ch = '='
      · rw [if_pos c3] at h
        obtain ⟨ts, hr, rfl⟩ := map_cons_ok h
        rcases List.mem_cons.mp ht with rfl | hmem
        · exact TokenKind.noConfusion hk
        · exact ih _ ts hr t hmem hk
      rw [if_neg c3] at h
      by_cases c4 : ch = ','
      · rw [if_pos c4] at h
        obtain ⟨ts, hr, rfl⟩ := map_cons_ok h
        rcases List.mem_cons.mp ht with rfl | hmem
        · exact TokenKind.noConfusion hk
        · exact ih _ ts hr t hmem hk
      rw [if_neg c4] at h
      by_cases c5 : ch = ';'
      · rw [if_pos c5] at h
        obtain ⟨ts, hr, rfl⟩ := map_cons_ok h
        rcases List.mem_cons.mp ht with rfl | hmem
        · exact TokenKind.noConfusion hk
        · exact ih _ ts hr t hmem hk
      rw [if_neg c5] at h
      by_cases c6 : ch = '('
      · rw [if_pos c6] at h
        obtain ⟨ts, hr, rfl⟩ := map_cons_ok h
        rcases List.mem_cons.mp ht with rfl | hmem
        · exact TokenKind.noConfusion hk
        · exact ih _ ts hr t hmem hk
      rw [if_neg c6] at h
      by_cases c7 : ch = ')'
      · rw [if_pos c7] at h
        obtain ⟨ts, hr, rfl⟩ := map_cons_ok h
        rcases List.mem_cons.mp ht with rfl | hmem
        · exact TokenKind.noConfusion hk
        · exact ih _ ts hr t hmem hk
      rw [if_neg c7] at h
      by_cases c8 : (ch = '+' || ch = '-' || ch.isDigit) = true
      · rw [if_pos c8] at h
        cases hscan : scanDigitRun src (tokOffset src (ch :: cs)) ch cs with
        | error e =>
          rw [hscan] at h
          exact Except.noConfusion h
        | ok pr =>
          obtain ⟨tok, rest2⟩ := pr
          rw [hscan] at h
          obtain ⟨ts, hr, rfl⟩ := map_cons_ok h
          rcases List.mem_cons.mp ht with rfl | hmem
          · exact scanDigitRun_ok_value hscan
          · exact ih _ ts hr t hmem hk
      rw [if_neg c8] at h
      by_cases c9 : _is_ident_start ch = true
      · rw [if_pos c9] at h
        by_cases c10 : ch :: cs.takeWhile _is_ident_part = str "trit"
        · rw [if_pos c10] at h
          obtain ⟨ts, hr, rfl⟩ := map_cons_ok h
          rcases List.mem_cons.mp ht with rfl | hmem
          · exact TokenKind.noConfusion hk
          · exact ih _ ts hr t hmem hk
        · rw [if_neg c10] at h
          obtain ⟨ts, hr, rfl⟩ := map_cons_ok h
          rcases List.mem_cons.mp ht with rfl | hmem
          · exact TokenKind.noConfusion hk
          · exact ih _ ts hr t hmem hk
      rw [if_neg c9] at h
      exact Except.noConfusion h

/-- Every `TRIT` token `tokenize` produces has text `-1`, `0` or `+1`. -/
theorem tokenize_trit_values (src : Str) (toks : List Token)
    (h : tokenize src = .ok toks) :
    ∀ t ∈ toks, t.kind = TokenKind.TRIT →
      t.value = str "-1" ∨ t.value = str "0" ∨ t.value = str "+1" :=
  tokenizeAux_trit_values src (src.length + 1) src toks h

end TrineDSL

namespace TrineDSL

/-- Unfolding lemma for `lastNewline` on a cons. -/
theorem lastNewline_cons (c : Char) (cs : Str) :
    lastNewline (c :: cs) =
      (match lastNewline cs with
        | some k => some (k + 1)
        | none => if c = '\n' then some 0 else none) := rfl

/-- Unfolding lemma for `firstNewline` on a cons. -/
theorem firstNewline_cons (c : Char) (cs : Str) :
    firstNewline (c :: cs) =
      (if c = '\n' then some 0 else (firstNewline cs).map (· + 1)) := rfl

/-- If the backwards newline search finds nothing, there is no newline. -/
theorem lastNewline_none : ∀ s : Str, lastNewline s = none → '\n' ∉ s := by
  intro s
  induction s with
  | nil => intro _ hm; cases hm
  | cons c cs ih =>
    intro h hm
    cases hcs : lastNewline cs with
    | some k =>
      simp only [lastNewline_cons, hcs] at h
      exact Option.noConfusion h
    | none =>
      simp only [lastNewline_cons, hcs] at h
      by_cases hc : c = '\n'
      · rw [if_pos hc] at h
        exact Option.noConfusion h
      · rcases List.mem_cons.mp hm with rfl | hmem
        · exact hc rfl
        · exact ih hcs hmem

/-- A successful backwards newline search splits the text at its last
newline. -/
theorem lastNewline_some : ∀ (s : Str) (k : Nat), lastNewline s = some k →
    ∃ pre post : Str, s = pre ++ '\n' :: post ∧ pre.length = k ∧ '\n' ∉ post := by
  intro s
  induction s with
  | nil => intro k h; exact absurd h (by simp [lastNewline])
  | cons c cs ih =>
    intro k h
    cases hcs : lastNewline cs with
    | some k2 =>
      simp only [lastNewline_cons, hcs] at h
      obtain rfl := (Option.some.injEq _ _).mp h
      obtain ⟨pre, post, rfl, rfl, hpost⟩ := ih k2 hcs
      exact ⟨c :: pre, post, rfl, by simp, hpost⟩
    | none =>
      simp only [lastNewline_cons, hcs] at h
      by_cases hc : c = '\n'
      · rw [if_pos hc] at h
        obtain rfl := (Option.some.injEq _ _).mp h
        subst hc
        exact ⟨[], cs, rfl, rfl, lastNewline_none cs hcs⟩
      · rw [if_neg hc] at h
        exact Option.noConfusion h

/-- If the forwards newline search finds nothing, there is no newline. -/
theorem firstNewline_none : ∀ s : Str, firstNewline s = none → '\n' ∉ s := by
  intro s
  induction s with
  | nil => intro _ hm; cases hm
  | cons c cs ih =>
    intro h hm
    simp only [firstNewline_cons] at h
    by_cases hc : c = '\n'
    · rw [if_pos hc] at h
      exact Option.noConfusion h
    · rw [if_neg hc] at h
      rcases List.mem_cons.mp hm with rfl | hmem
      · exact hc rfl
      · exact ih (Option.map_eq_none'.mp h) hmem

/-- A successful forwards newline search splits the text at its first
newline. -/
theorem firstNewline_some : ∀ (s : Str) (k : Nat), firstNewline s = some k →
    ∃ pre post : Str, s = pre ++ '\n' :: post ∧ pre.length = k ∧ '\n' ∉ pre := by
  intro s
  induction s with
  | nil => intro k h; exact absurd h (by simp [firstNewline])
  | cons c cs ih =>
    intro k h
    simp only [firstNewline_cons] at h
    by_cases hc : c = '\n'
    · rw [if_pos hc] at h
      obtain rfl := (Option.some.injEq _ _).mp h
      subst hc
      exact ⟨[], cs, rfl, rfl, by simp⟩
    · rw [if_neg hc] at h
      obtain ⟨k2, hk2, rfl⟩ := Option.map_eq_some'.mp h
      obtain ⟨pre, post, rfl, rfl, hpre⟩ := ih k2 hk2
      refine ⟨c :: pre, post, rfl, by simp, ?_⟩
      intro hm
      rcases List.mem_cons.mp hm with rfl | hmem
      · exact hc rfl
      · exact hpre hmem

end TrineDSL

namespace TrineDSL

/-- Specification of `_pos_to_line_col`: for any offset `pos` inside `src`,
the source splits as `before ++ line_text ++ after` where `line_text` is the
reported line (newline-free), `before` is empty or ends with the newline
terminating the previous line, `after` is empty or starts with this line's
terminator, the reported 1-based line number is one more than the newlines
before the line, the offset lies within the reported line, and the reported
1-based column is the offset's distance from the line start plus one. -/
theorem pos_to_line_col_spec (src : Str) (pos : Nat) (hpos : pos ≤ src.length) :
    ∃ before after : Str,
      src = before ++ (_pos_to_line_col src pos).2.2 ++ after ∧
      '\n' ∉ (_pos_to_line_col src pos).2.2 ∧
      (before = [] ∨ before.getLast? = some '\n') ∧
      (after = [] ∨ ∃ a2, after = '\n' :: a2) ∧
      (_pos_to_line_col src pos).1 = before.count '\n' + 1 ∧
      before.length ≤ pos ∧
      pos ≤ before.length + (_pos_to_line_col src pos).2.2.length ∧
      (_pos_to_line_col src pos).2.1 = pos - before.length + 1 := by
  have htl : (src.take pos).length = pos := by
    rw [List.length_take]
    omega
  cases hlast : lastNewline (src.take pos) with
  | none =>
    have hnl1 : '\n' ∉ src.take pos := lastNewline_none _ hlast
    cases hfirst : firstNewline (src.drop pos) with
    | none =>
      have hnl2 : '\n' ∉ src.drop pos := firstNewline_none _ hfirst
      have heq : _pos_to_line_col src pos = (1, pos + 1, src) := by
        simp [_pos_to_line_col, hlast, hfirst, List.count_eq_zero.mpr hnl1]
      refine ⟨[], [], ?_, ?_, Or.inl rfl, Or.inl rfl, ?_, ?_, ?_, ?_⟩
      · rw [heq]; simp
      · rw [heq]
        intro hm
        rw [← List.take_append_drop pos src] at hm
        rcases List.mem_append.mp hm with hm | hm
        · exact hnl1 hm
        · exact hnl2 hm
      · rw [heq]; simp
      · simp
      · rw [heq]; simpa using hpos
      · rw [heq]; simp
    | some m =>
      obtain ⟨qre, qost, hsplit2, hmlen, hqre⟩ := firstNewline_some _ m hfirst
      have hsrc : src = (src.take pos ++ qre) ++ '\n' :: qost := by
        conv_lhs => rw [← List.take_append_drop pos src]
        rw [hsplit2]
        simp
      have htlen : (src.take pos ++ qre).length = pos + m := by
        simp [htl, hmlen]
      have htext : src.take (pos + m) = src.take pos ++ qre := by
        conv_lhs => rw [hsrc]
        exact List.take_left' htlen
      have heq : _pos_to_line_col src pos = (1, pos + 1, src.take pos ++ qre) := by
        simp [_pos_to_line_col, hlast, hfirst, List.count_eq_zero.mpr hnl1, htext]
      refine ⟨[], '\n' :: qost, ?_, ?_, Or.inl rfl, Or.inr ⟨qost, rfl⟩, ?_, ?_, ?_, ?_⟩
      · rw [heq]; simpa using hsrc
      · rw [heq]
        intro hm
        rcases List.mem_append.mp hm with hm | hm
        · exact hnl1 hm
        · exact hqre hm
      · rw [heq]; simp
      · simp
      · rw [heq]
        simp [htl, hmlen]
      · rw [heq]; simp
  | some k =>
    obtain ⟨pre, post, hsplit, hklen, hpost⟩ := lastNewline_some _ k hlast
    have hposeq : pos = k + 1 + post.length := by
      have hlen := congrArg List.length hsplit
      rw [htl] at hlen
      simp at hlen
      omega
    have hblen : (pre ++ ['\n']).length = k + 1 := by simp [hklen]
    have hcount : (src.take pos).count '\n' = (pre ++ ['\n']).count '\n' := by
      rw [hsplit]
      simp [List.count_append, List.count_cons, List.count_eq_zero.mpr hpost]
    cases hfirst : firstNewline (src.drop pos) with
    | none =>
      have hnl2 : '\n' ∉ src.drop pos := firstNewline_none _ hfirst
      have hsrc : src = (pre ++ ['\n']) ++ (post ++ src.drop pos) := by
        conv_lhs => rw [← List.take_append_drop pos src]
        rw [hsplit]
        simp
      have hdrop : src.drop (k + 1) = post ++ src.drop pos := by
        conv_lhs => rw [hsrc]
        rw [← hblen, List.drop_left]
      have hslen : src.length = (k + 1) + (post ++ src.drop pos).length := by
        conv_lhs => rw [hsrc]
        simp [hblen]
        omega
      have htext : (src.drop (k + 1)).take (src.length - (k + 1)) = post ++ src.drop pos := by
        rw [hdrop, hslen]
        simp
      have heq : _pos_to_line_col src pos =
          ((src.take pos).count '\n' + 1, pos - (k + 1) + 1, post ++ src.drop pos) := by
        simp [_pos_to_line_col, hlast, hfirst, htext]
      refine ⟨pre ++ ['\n'], [], ?_, ?_, Or.inr (List.getLast?_concat _), Or.inl rfl,
        ?_, ?_, ?_, ?_⟩
      · rw [heq]; simpa using hsrc
      · rw [heq]
        intro hm
        rcases List.mem_append.mp hm with hm | hm
        · exact hpost hm
        · exact hnl2 hm
      · rw [heq]; simp [hcount]
      · rw [hblen]; omega
      · rw [heq]
        simp [hblen]
        omega
      · rw [heq]; simp [hblen]
    | some m =>
      obtain ⟨qre, qost, hsplit2, hmlen, hqre⟩ := firstNewline_some _ m hfirst
      have hsrc : src = (pre ++ ['\n']) ++ ((post ++ qre) ++ '\n' :: qost) := by
        conv_lhs => rw [← List.take_append_drop pos src]
        rw [hsplit, hsplit2]
        simp
      have hdrop : src.drop (k + 1) = (post ++ qre) ++ '\n' :: qost := by
        conv_lhs => rw [hsrc]
        rw [← hblen, List.drop_left]
      have hpqlen : (post ++ qre).length = pos + m - (k + 1) := by
        simp [hmlen]
        omega
      have htext : (src.drop (k + 1)).take (pos + m - (k + 1)) = post ++ qre := by
        rw [hdrop]
        exact List.take_left' hpqlen
      have heq : _pos_to_line_col src pos =
          ((src.take pos).count '\n' + 1, pos - (k + 1) + 1, post ++ qre) := by
        simp [_pos_to_line_col, hlast, hfirst, htext]
      refine ⟨pre ++ ['\n'], '\n' :: qost, ?_, ?_, Or.inr (List.getLast?_concat _),
        Or.inr ⟨qost, rfl⟩, ?_, ?_, ?_, ?_⟩
      · rw [heq]; simpa using hsrc
      · rw [heq]
        intro hm
        rcases List.mem_append.mp hm with hm | hm
        · exact hpost hm
        · exact hqre hm
      · rw [heq]; simp [hcount]
      · rw [hblen]; omega
      · rw [heq]
        simp [hblen, hmlen]
        omega
      · rw [heq]; simp [hblen]

end TrineDSL

namespace TrineDSL

/-- C6: the lexer accepts exactly the digit runs `-1`, `0`, `+1` as trit
literals — every `TRIT` token it ever produces has one of these three
texts, and the three are accepted — while any other scanned digit run
(`2`, `-5`, `01`) or a sign with no following digit raises an Invalid Trit
Literal Lex error whose reported 1-based line and column correspond to the
literal's start offset, with `\n`-delimited line boundaries and the line
text excluding the terminator (the general position-mapping law plus
concrete instances, including one beyond the first line). -/
theorem claim_C6_lexer_trit_literals :
    (∀ (src : Str) (toks : List Token), tokenize src = .ok toks →
      ∀ t ∈ toks, t.kind = TokenKind.TRIT →
        t.value = str "-1" ∨ t.value = str "0" ∨ t.value = str "+1") ∧
    (∀ (src : Str) (pos : Nat), pos ≤ src.length →
      ∃ before after : Str,
        src = before ++ (_pos_to_line_col src pos).2.2 ++ after ∧
        '\n' ∉ (_pos_to_line_col src pos).2.2 ∧
        (before = [] ∨ before.getLast? = some '\n') ∧
        (after = [] ∨ ∃ a2, after = '\n' :: a2) ∧
        (_pos_to_line_col src pos).1 = before.count '\n' + 1 ∧
        before.length ≤ pos ∧
        pos ≤ before.length + (_pos_to_line_col src pos).2.2.length ∧
        (_pos_to_line_col src pos).2.1 = pos - before.length + 1) ∧
    tokenize (str "trit X;\nX = 2;") =
      .error ⟨str "Lexing Error", str "Invalid Trit Literal", 2, 5, str "X = 2;",
        str "'2' is not a valid trit literal; expected -1, 0, or +1."⟩ ∧
    tokenize (str "-5") =
      .error ⟨str "Lexing Error", str "Invalid Trit Literal", 1, 1, str "-5",
        str "'-5' is not a valid trit literal; expected -1, 0, or +1."⟩ ∧
    tokenize (str "01") =
      .error ⟨str "Lexing Error", str "Invalid Trit Literal", 1, 1, str "01",
        str "'01' is not a valid trit literal; expected -1, 0, or +1."⟩ ∧
    tokenize (str "+ 1") =
      .error ⟨str "Lexing Error", str "Invalid Trit Literal", 1, 1, str "+ 1",
        str "Invalid signed numeric literal; trits must be -1, 0, or +1."⟩ ∧
    tokenize (str "-1 0 +1") =
      .ok [⟨TokenKind.TRIT, str "-1", 0⟩, ⟨TokenKind.TRIT, str "0", 3⟩,
           ⟨TokenKind.TRIT, str "+1", 5⟩, ⟨TokenKind.EOF, [], 7⟩] := by
  exact ⟨fun src toks h => tokenizeAux_trit_values src (src.length + 1) src toks h,
    pos_to_line_col_spec, by decide, by decide, by decide, by decide, by decide⟩

/-- Witness for C6: the general clauses applied at concrete inputs. -/
theorem claim_C6_lexer_trit_literals_witness :
    ((⟨TokenKind.TRIT, str "0", 0⟩ : Token).value = str "-1" ∨
     (⟨TokenKind.TRIT, str "0", 0⟩ : Token).value = str "0" ∨
     (⟨TokenKind.TRIT, str "0", 0⟩ : Token).value = str "+1") ∧
    (∃ before after : Str,
      str "ab\ncd" = before ++ (_pos_to_line_col (str "ab\ncd") 4).2.2 ++ after ∧
      '\n' ∉ (_pos_to_line_col (str "ab\ncd") 4).2.2 ∧
      (before = [] ∨ before.getLast? = some '\n') ∧
      (after = [] ∨ ∃ a2, after = '\n' :: a2) ∧
      (_pos_to_line_col (str "ab\ncd") 4).1 = before.count '\n' + 1 ∧
      before.length ≤ 4 ∧
      4 ≤ before.length + (_pos_to_line_col (str "ab\ncd") 4).2.2.length ∧
      (_pos_to_line_col (str "ab\ncd") 4).2.1 = 4 - before.length + 1) :=
  ⟨claim_C6_lexer_trit_literals.1 (str "0;")
      [⟨TokenKind.TRIT, str "0", 0⟩, ⟨TokenKind.SEMI, [';'], 1⟩, ⟨TokenKind.EOF, [], 2⟩]
      rfl ⟨TokenKind.TRIT, str "0", 0⟩ (by decide) rfl,
   claim_C6_lexer_trit_literals.2.1 (str "ab\ncd") 4 (by decide)⟩

end TrineDSL

namespace TrineDSL

/-- The reported line text never contains a newline. -/
theorem pos_to_line_col_text_no_newline (src : Str) (pos : Nat) (hpos : pos ≤ src.length) :
    '\n' ∉ (_pos_to_line_col src pos).2.2 := by
  obtain ⟨b, a, _, h, _⟩ := pos_to_line_col_spec src pos hpos
  exact h

/-- A lexer diagnostic built at an in-range offset has single-line fields. -/
theorem mkLexError_errOK {src : Str} {pos : Nat} {stmt desc : Str}
    (hpos : pos ≤ src.length) (hs : '\n' ∉ stmt) (hd : '\n' ∉ desc) :
    errOK (mkLexError src pos stmt desc) :=
  ⟨by show '\n' ∉ str "Lexing Error"; decide, hs,
   pos_to_line_col_text_no_newline src pos hpos, hd⟩

/-- A parser diagnostic built at an in-range offset has single-line fields. -/
theorem mkParseError_errOK {src : Str} {pos : Nat} {stmt desc : Str}
    (hpos : pos ≤ src.length) (hs : '\n' ∉ stmt) (hd : '\n' ∉ desc) :
    errOK (mkParseError src pos stmt desc) :=
  ⟨by show '\n' ∉ str "Parsing Error"; decide, hs,
   pos_to_line_col_text_no_newline src pos hpos, hd⟩

/-- A runtime diagnostic has single-line fields. -/
theorem _rt_error_errOK {stmt desc : Str} (hs : '\n' ∉ stmt) (hd : '\n' ∉ desc) :
    errOK (_rt_error stmt desc) :=
  ⟨by show '\n' ∉ str "Runtime Error"; decide, hs,
   by show '\n' ∉ ([] : Str); decide, hd⟩

/-- Python's decimal rendering of an integer never contains a newline. -/
theorem intStr_no_newline (v : Int) : '\n' ∉ intStr v := by
  unfold intStr
  split
  · intro hm
    rcases List.mem_cons.mp hm with h1 | h2
    · exact absurd h1 (by decide)
    · exact natDigits_no_newline _ h2
  · exact natDigits_no_newline _

/-- A failed `Except.map` comes from a failed argument. -/
theorem map_cons_error {tok : Token} {x : Except TrineDSLError (List Token)}
    {e : TrineDSLError} (h : x.map (tok :: ·) = .error e) : x = .error e := by
  cases x with
  | error e2 =>
    rw [show (Except.error e2 : Except TrineDSLError (List Token)).map (tok :: ·) =
      .error e2 from rfl] at h
    exact h
  | ok ts => exact Except.noConfusion h

/-- A successful digit-run scan emits its token at the given offset. -/
theorem scanDigitRun_ok_pos {src : Str} {i : Nat} {ch : Char} {cs : Str}
    {tok : Token} {rest2 : Str}
    (h : scanDigitRun src i ch cs = .ok (tok, rest2)) : tok.pos = i := by
  simp only [scanDigitRun] at h
  split at h
  · split at h
    · split at h
      · obtain ⟨rfl, rfl⟩ := Prod.mk.injEq .. ▸ (Except.ok.injEq _ _).mp h
        rfl
      · exact Except.noConfusion h
    · exact Except.noConfusion h
  · split at h
    · obtain ⟨rfl, rfl⟩ := Prod.mk.injEq .. ▸ (Except.ok.injEq _ _).mp h
      rfl
    · exact Except.noConfusion h

/-- A failed digit-run scan produces a single-line diagnostic. -/
theorem scanDigitRun_err {src : Str} {i : Nat} {ch : Char} {cs : Str} {e : TrineDSLError}
    (hi : i ≤ src.length)
    (h : scanDigitRun src i ch cs = .error e) : errOK e := by
  simp only [scanDigitRun] at h
  split at h
  · rename_i hsign
    split at h
    · split at h
      · exact Except.noConfusion h
      · obtain rfl := (Except.error.injEq _ _).mp h
        refine mkLexError_errOK hi (by decide) ?_
        intro hm
        rcases List.mem_cons.mp hm with h1 | h2
        · exact absurd h1 (by decide)
        rcases List.mem_append.mp h2 with h3 | h4
        · rcases List.mem_cons.mp h3 with h5 | h6
          · rw [← h5] at hsign
            exact absurd hsign (by decide)
          · exact absurd (List.mem_takeWhile_imp h6) (by decide)
        · exact absurd h4 (by decide)
    · obtain rfl := (Except.error.injEq _ _).mp h
      exact mkLexError_errOK hi (by decide) (by decide)
  · split at h
    · exact Except.noConfusion h
    · obtain rfl := (Except.error.injEq _ _).mp h
      refine mkLexError_errOK hi (by decide) ?_
      intro hm
      rcases List.mem_cons.mp hm with h1 | h2
      · exact absurd h1 (by decide)
      rcases List.mem_append.mp h2 with h3 | h4
      · exact absurd (List.mem_takeWhile_imp h3) (by decide)
      · exact absurd h4 (by decide)

end TrineDSL

namespace TrineDSL

/-- Every token the lexer emits has single-line text and an in-range offset. -/
theorem tokenizeAux_tokOK (src : Str) :
    ∀ (fuel : Nat) (rest : Str) (toks : List Token),
      tokenizeAux src fuel rest = .ok toks → ∀ t ∈ toks, tokOK src t := by
  intro fuel
  induction fuel with
  | zero => intro rest toks h; exact absurd h (by simp [tokenizeAux])
  | succ f ih =>
    intro rest toks h t ht
    cases rest with
    | nil =>
      rw [tokenizeAux_nil] at h
      obtain rfl := (Except.ok.injEq _ _).mp h
      rcases List.mem_singleton.mp ht with rfl
      exact ⟨by show '\n' ∉ ([] : Str); decide, Nat.le_refl _⟩
    | cons ch cs =>
      rw [tokenizeAux_cons] at h
      by_cases c1 : ch.isWhitespace = true
      · rw [if_pos c1] at h
        exact ih cs toks h t ht
      rw [if_neg c1] at h
      by_cases c2 : (ch = '/' && cs.head? = some '/') = true
      · rw [if_pos c2] at h
        exact ih _ toks h t ht
      rw [if_neg c2] at h
      by_cases c3 : ch = '='
      · rw [if_pos c3] at h
        obtain ⟨ts, hr, rfl⟩ := map_cons_ok h
        rcases List.mem_cons.mp ht with rfl | hmem
        · exact ⟨by show '\n' ∉ ['=']; decide, Nat.sub_le _ _⟩
        · exact ih _ ts hr t hmem
      rw [if_neg c3] at h
      by_cases c4 : ch = ','
      · rw [if_pos c4] at h
        obtain ⟨ts, hr, rfl⟩ := map_cons_ok h
        rcases List.mem_cons.mp ht with rfl | hmem
        · exact ⟨by show '\n' ∉ [',']; decide, Nat.sub_le _ _⟩
        · exact ih _ ts hr t hmem
      rw [if_neg c4] at h
      by_cases c5 : ch = ';'
      · rw [if_pos c5] at h
        obtain ⟨ts, hr, rfl⟩ := map_cons_ok h
        rcases List.mem_cons.mp ht with rfl | hmem
        · exact ⟨by show '\n' ∉ [';']; decide, Nat.sub_le _ _⟩
        · exact ih _ ts hr t hmem
      rw [if_neg c5] at h
      by_cases c6 : ch = '('
      · rw [if_pos c6] at h
        obtain ⟨ts, hr, rfl⟩ := map_cons_ok h
        rcases List.mem_cons.mp ht with rfl | hmem
        · exact ⟨by show '\n' ∉ ['(']; decide, Nat.sub_le _ _⟩
        · exact ih _ ts hr t hmem
      rw [if_neg c6] at h
      by_cases c7 : ch = ')'
      · rw [if_pos c7] at h
        obtain ⟨ts, hr, rfl⟩ := map_cons_ok h
        rcases List.mem_cons.mp ht with rfl | hmem
        · exact ⟨by show '\n' ∉ [')']; decide, Nat.sub_le _ _⟩
        · exact ih _ ts hr t hmem
      rw [if_neg c7] at h
      by_cases c8 : (ch = '+' || ch = '-' || ch.isDigit) = true
      · rw [if_pos c8] at h
        cases hscan : scanDigitRun src (tokOffset src (ch :: cs)) ch cs with
        | error e =>
          rw [hscan] at h
          exact Except.noConfusion h
        | ok pr =>
          obtain ⟨tok, rest2⟩ := pr
          rw [hscan] at h
          obtain ⟨ts, hr, rfl⟩ := map_cons_ok h
          rcases List.mem_cons.mp ht with rfl | hmem
          · constructor
            · rcases scanDigitRun_ok_value hscan with hv | hv | hv <;> rw [hv] <;> decide
            · rw [scanDigitRun_ok_pos hscan]
              exact Nat.sub_le _ _
          · exact ih _ ts hr t hmem
      rw [if_neg c8] at h
      by_cases c9 : _is_ident_start ch = true
      · rw [if_pos c9] at h
        by_cases c10 : ch :: cs.takeWhile _is_ident_part = str "trit"
        · rw [if_pos c10] at h
          obtain ⟨ts, hr, rfl⟩ := map_cons_ok h
          rcases List.mem_cons.mp ht with rfl | hmem
          · refine ⟨?_, Nat.sub_le _ _⟩
            show '\n' ∉ ch :: cs.takeWhile _is_ident_part
            rw [c10]
            decide
          · exact ih _ ts hr t hmem
        · rw [if_neg c10] at h
          obtain ⟨ts, hr, rfl⟩ := map_cons_ok h
          rcases List.mem_cons.mp ht with rfl | hmem
          · refine ⟨?_, Nat.sub_le _ _⟩
            show '\n' ∉ ch :: cs.takeWhile _is_ident_part
            intro hm
            rcases List.mem_cons.mp hm with h5 | h6
            · rw [← h5] at c9
              exact absurd c9 (by decide)
            · exact absurd (List.mem_takeWhile_imp h6) (by decide)
          · exact ih _ ts hr t hmem
      rw [if_neg c9] at h
      exact Except.noConfusion h

/-- Every diagnostic the lexer raises has single-line fields. -/
theorem tokenizeAux_errOK (src : Str) :
    ∀ (fuel : Nat) (rest : Str) (e : TrineDSLError),
      tokenizeAux src fuel rest = .error e → errOK e := by
  intro fuel
  induction fuel with
  | zero =>
    intro rest e h
    obtain rfl := (Except.error.injEq _ _).mp h
    decide
  | succ f ih =>
    intro rest e h
    cases rest with
    | nil =>
      rw [tokenizeAux_nil] at h
      exact Except.noConfusion h
    | cons ch cs =>
      rw [tokenizeAux_cons] at h
      by_cases c1 : ch.isWhitespace = true
      · rw [if_pos c1] at h
        exact ih cs e h
      rw [if_neg c1] at h
      by_cases c2 : (ch = '/' && cs.head? = some '/') = true
      · rw [if_pos c2] at h
        exact ih _ e h
      rw [if_neg c2] at h
      by_cases c3 : ch = '='
      · rw [if_pos c3] at h
        exact ih _ e (map_cons_error h)
      rw [if_neg c3] at h
      by_cases c4 : ch = ','
      · rw [if_pos c4] at h
        exact ih _ e (map_cons_error h)
      rw [if_neg c4] at h
      by_cases c5 : ch = ';'
      · rw [if_pos c5] at h
        exact ih _ e (map_cons_error h)
      rw [if_neg c5] at h
      by_cases c6 : ch = '('
      · rw [if_pos c6] at h
        exact ih _ e (map_cons_error h)
      rw [if_neg c6] at h
      by_cases c7 : ch = ')'
      · rw [if_pos c7] at h
        exact ih _ e (map_cons_error h)
      rw [if_neg c7] at h
      by_cases c8 : (ch = '+' || ch = '-' || ch.isDigit) = true
      · rw [if_pos c8] at h
        cases hscan : scanDigitRun src (tokOffset src (ch :: cs)) ch cs with
        | error e2 =>
          rw [hscan] at h
          obtain rfl := (Except.error.injEq _ _).mp h
          exact scanDigitRun_err (Nat.sub_le _ _) hscan
        | ok pr =>
          obtain ⟨tok, rest2⟩ := pr
          rw [hscan] at h
          exact ih _ e (map_cons_error h)
      rw [if_neg c8] at h
      by_cases c9 : _is_ident_start ch = true
      · rw [if_pos c9] at h
        by_cases c10 : ch :: cs.takeWhile _is_ident_part = str "trit"
        · rw [if_pos c10] at h
          exact ih _ e (map_cons_error h)
        · rw [if_neg c10] at h
          exact ih _ e (map_cons_error h)
      rw [if_neg c9] at h
      obtain rfl := (Except.error.injEq _ _).mp h
      refine mkLexError_errOK (Nat.sub_le _ _) (by decide) ?_
      intro hm
      rcases List.mem_cons.mp hm with h1 | h2
      · exact absurd h1 (by decide)
      rcases List.mem_cons.mp h2 with h3 | h4
      · rw [← h3] at c1
        exact absurd (by decide : ('\n'.isWhitespace = true)) c1
      · exact absurd h4 (by decide)

/-- `tokenize` only emits well-formed tokens. -/
theorem tokenize_tokOK (src : Str) (toks : List Token) (h : tokenize src = .ok toks) :
    ∀ t ∈ toks, tokOK src t :=
  tokenizeAux_tokOK src (src.length + 1) src toks h

/-- `tokenize` only raises single-line diagnostics. -/
theorem tokenize_errOK (src : Str) (e : TrineDSLError) (h : tokenize src = .error e) :
    errOK e :=
  tokenizeAux_errOK src (src.length + 1) src e h

end TrineDSL


namespace TrineDSL

/-- The current token of a well-formed token list is well-formed (the
out-of-tokens fallback is the well-formed EOF sentinel). -/
theorem currentTok_tokOK {src : Str} {toks : List Token}
    (h : ∀ t ∈ toks, tokOK src t) : tokOK src (currentTok toks) := by
  cases toks with
  | nil => exact ⟨by show '\n' ∉ ([] : Str); decide, Nat.zero_le _⟩
  | cons t ts => exact h t (List.mem_cons_self _ _)

/-- Dropping the first token preserves token well-formedness. -/
theorem tailOK {src : Str} {toks : List Token}
    (h : ∀ t ∈ toks, tokOK src t) : ∀ t ∈ toks.tail, tokOK src t :=
  fun t ht => h t (List.mem_of_mem_tail ht)

/-- Token-kind names never contain a newline. -/
theorem kindStr_no_newline (k : TokenKind) : '\n' ∉ kindStr k := by
  cases k <;> decide

/-- Within a well-formed token stream, `parse_expr` only raises single-line
diagnostics, and on success returns a single-line expression and a
well-formed remainder; likewise for the argument loop `parse_args`. -/
theorem parse_expr_args_OK (src : Str) :
    ∀ fuel : Nat,
      (∀ toks : List Token, (∀ t ∈ toks, tokOK src t) →
        (∀ e, parse_expr src fuel toks = .error e → errOK e) ∧
        (∀ x rest, parse_expr src fuel toks = .ok (x, rest) →
          ExprOK x ∧ ∀ t ∈ rest, tokOK src t)) ∧
      (∀ toks : List Token, (∀ t ∈ toks, tokOK src t) →
        (∀ e, parse_args src fuel toks = .error e → errOK e) ∧
        (∀ xs rest, parse_args src fuel toks = .ok (xs, rest) →
          (∀ x ∈ xs, ExprOK x) ∧ ∀ t ∈ rest, tokOK src t)) := by
  intro fuel
  induction fuel with
  | zero =>
    refine ⟨fun toks htoks => ⟨fun e he => ?_, fun x rest hok => Except.noConfusion hok⟩,
      fun toks htoks => ⟨fun e he => ?_, fun xs rest hok => Except.noConfusion hok⟩⟩
    · obtain rfl := (Except.error.injEq _ _).mp he
      decide
    · obtain rfl := (Except.error.injEq _ _).mp he
      decide
  | succ f ih =>
    obtain ⟨ihE, ihA⟩ := ih
    constructor
    · intro toks htoks
      by_cases c1 : (currentTok toks).kind = TokenKind.TRIT
      · have hred : parse_expr src (f + 1) toks =
            .ok (Expr.TritLiteral (tritValue (currentTok toks).value), toks.tail) := by
          unfold parse_expr
          rw [if_pos c1]
        rw [hred]
        refine ⟨fun e he => Except.noConfusion he, fun x rest hok => ?_⟩
        obtain ⟨rfl, rfl⟩ := Prod.mk.injEq .. ▸ (Except.ok.injEq _ _).mp hok
        exact ⟨ExprOK.lit, tailOK htoks⟩
      by_cases c2 : (currentTok toks).kind = TokenKind.IDENT
      · by_cases c3 : (currentTok toks.tail).kind = TokenKind.LPAREN
        · have htt : ∀ t ∈ toks.tail.tail, tokOK src t := tailOK (tailOK htoks)
          by_cases c4 : (currentTok toks.tail.tail).kind ≠ TokenKind.RPAREN
          · cases hsc : parse_args src f toks.tail.tail with
            | error e2 =>
              have hred : parse_expr src (f + 1) toks = .error e2 := by
                unfold parse_expr
                rw [if_neg c1, if_pos c2, if_pos c3, if_pos c4, hsc]
              rw [hred]
              refine ⟨fun e he => ?_, fun x rest hok => Except.noConfusion hok⟩
              obtain rfl := (Except.error.injEq _ _).mp he
              exact (ihA _ htt).1 e2 hsc
            | ok pr =>
              obtain ⟨args, rest⟩ := pr
              obtain ⟨hargsOK, hrestOK⟩ := (ihA _ htt).2 args rest hsc
              by_cases c5 : (currentTok rest).kind = TokenKind.RPAREN
              · have hred : parse_expr src (f + 1) toks =
                    .ok (Expr.FuncCall (currentTok toks).value args, rest.tail) := by
                  unfold parse_expr
                  rw [if_neg c1, if_pos c2, if_pos c3, if_pos c4, hsc]
                  exact if_pos c5
                rw [hred]
                refine ⟨fun e he => Except.noConfusion he, fun x rest2 hok => ?_⟩
                obtain ⟨rfl, rfl⟩ := Prod.mk.injEq .. ▸ (Except.ok.injEq _ _).mp hok
                exact ⟨ExprOK.call (currentTok_tokOK htoks).1 hargsOK, tailOK hrestOK⟩
              · have hred : parse_expr src (f + 1) toks =
                    .error (mkParseError src (currentTok rest).pos
                      (str "Missing Closing Parenthesis")
                      (str "Expected ')' to close function call arguments.")) := by
                  unfold parse_expr
                  rw [if_neg c1, if_pos c2, if_pos c3, if_pos c4, hsc]
                  exact if_neg c5
                rw [hred]
                refine ⟨fun e he => ?_, fun x rest2 hok => Except.noConfusion hok⟩
                obtain rfl := (Except.error.injEq _ _).mp he
                exact mkParseError_errOK (currentTok_tokOK hrestOK).2 (by decide) (by decide)
          · have hred : parse_expr src (f + 1) toks =
                .ok (Expr.FuncCall (currentTok toks).value [], toks.tail.tail.tail) := by
              unfold parse_expr
              rw [if_neg c1, if_pos c2, if_pos c3, if_neg c4]
              exact if_pos (not_not.mp c4)
            rw [hred]
            refine ⟨fun e he => Except.noConfusion he, fun x rest hok => ?_⟩
            obtain ⟨rfl, rfl⟩ := Prod.mk.injEq .. ▸ (Except.ok.injEq _ _).mp hok
            refine ⟨ExprOK.call (currentTok_tokOK htoks).1
              (fun x hx => absurd hx (List.not_mem_nil x)), tailOK htt⟩
        · have hred : parse_expr src (f + 1) toks =
              .ok (Expr.Name (currentTok toks).value, toks.tail) := by
            unfold parse_expr
            rw [if_neg c1, if_pos c2, if_neg c3]
          rw [hred]
          refine ⟨fun e he => Except.noConfusion he, fun x rest hok => ?_⟩
          obtain ⟨rfl, rfl⟩ := Prod.mk.injEq .. ▸ (Except.ok.injEq _ _).mp hok
          exact ⟨ExprOK.name (currentTok_tokOK htoks).1, tailOK htoks⟩
      · have hred : parse_expr src (f + 1) toks =
            .error (mkParseError src (currentTok toks).pos
              (str "Unexpected Token in Expression")
              (str "Unexpected token '" ++ (currentTok toks).value ++ str "' ("
                ++ kindStr (currentTok toks).kind ++ str ") in expression.")) := by
          unfold parse_expr
          rw [if_neg c1, if_neg c2]
        rw [hred]
        refine ⟨fun e he => ?_, fun x rest hok => Except.noConfusion hok⟩
        obtain rfl := (Except.error.injEq _ _).mp he
        refine mkParseError_errOK (currentTok_tokOK htoks).2 (by decide) ?_
        simp only [List.mem_append, not_or]
        exact ⟨⟨⟨⟨by decide, (currentTok_tokOK htoks).1⟩, by decide⟩,
          kindStr_no_newline _⟩, by decide⟩
    · intro toks htoks
      cases hsc : parse_expr src f toks with
      | error e2 =>
        have hred : parse_args src (f + 1) toks = .error e2 := by
          unfold parse_args
          rw [hsc]
        rw [hred]
        refine ⟨fun e he => ?_, fun xs rest hok => Except.noConfusion hok⟩
        obtain rfl := (Except.error.injEq _ _).mp he
        exact (ihE toks htoks).1 e2 hsc
      | ok pr =>
        obtain ⟨x, rest⟩ := pr
        obtain ⟨hxOK, hrestOK⟩ := (ihE toks htoks).2 x rest hsc
        by_cases c6 : (currentTok rest).kind = TokenKind.COMMA
        · cases hsc2 : parse_args src f rest.tail with
          | error e3 =>
            have hred : parse_args src (f + 1) toks = .error e3 := by
              unfold parse_args
              rw [hsc]
              exact (if_pos c6).trans (by rw [hsc2])
            rw [hred]
            refine ⟨fun e he => ?_, fun xs rest2 hok => Except.noConfusion hok⟩
            obtain rfl := (Except.error.injEq _ _).mp he
            exact (ihA rest.tail (tailOK hrestOK)).1 e3 hsc2
          | ok pr2 =>
            obtain ⟨xs2, rest2⟩ := pr2
            obtain ⟨hxs2OK, hrest2OK⟩ := (ihA rest.tail (tailOK hrestOK)).2 xs2 rest2 hsc2
            have hred : parse_args src (f + 1) toks = .ok (x :: xs2, rest2) := by
              unfold parse_args
              rw [hsc]
              exact (if_pos c6).trans (by rw [hsc2])
            rw [hred]
            refine ⟨fun e he => Except.noConfusion he, fun xs rest3 hok => ?_⟩
            obtain ⟨rfl, rfl⟩ := Prod.mk.injEq .. ▸ (Except.ok.injEq _ _).mp hok
            refine ⟨fun y hy => ?_, hrest2OK⟩
            rcases List.mem_cons.mp hy with rfl | hmem
            · exact hxOK
            · exact hxs2OK y hmem
        · have hred : parse_args src (f + 1) toks = .ok ([x], rest) := by
            unfold parse_args
            rw [hsc]
            exact if_neg c6
          rw [hred]
          refine ⟨fun e he => Except.noConfusion he, fun xs rest3 hok => ?_⟩
          obtain ⟨rfl, rfl⟩ := Prod.mk.injEq .. ▸ (Except.ok.injEq _ _).mp hok
          refine ⟨fun y hy => ?_, hrestOK⟩
          rcases List.mem_singleton.mp hy with rfl
          exact hxOK

end TrineDSL

namespace TrineDSL

/-- Within a well-formed token stream, the declaration-name loop only raises
single-line diagnostics, and on success returns single-line names and a
well-formed remainder. -/
theorem parse_decl_names_OK (src : Str) :
    ∀ fuel : Nat, ∀ toks : List Token, (∀ t ∈ toks, tokOK src t) →
      (∀ e, parse_decl_names src fuel toks = .error e → errOK e) ∧
      (∀ names rest, parse_decl_names src fuel toks = .ok (names, rest) →
        (∀ n ∈ names, '\n' ∉ n) ∧ ∀ t ∈ rest, tokOK src t) := by
  intro fuel
  induction fuel with
  | zero =>
    intro toks htoks
    refine ⟨fun e he => ?_, fun names rest hok => Except.noConfusion hok⟩
    obtain rfl := (Except.error.injEq _ _).mp he
    decide
  | succ f ih =>
    intro toks htoks
    by_cases c1 : (currentTok toks).kind = TokenKind.COMMA
    · by_cases c2 : (currentTok toks.tail).kind = TokenKind.IDENT
      · cases hsc : parse_decl_names src f toks.tail.tail with
        | error e2 =>
          have hred : parse_decl_names src (f + 1) toks = .error e2 := by
            unfold parse_decl_names
            rw [if_pos c1]
            exact (if_pos c2).trans (by rw [hsc])
          rw [hred]
          refine ⟨fun e he => ?_, fun names rest hok => Except.noConfusion hok⟩
          obtain rfl := (Except.error.injEq _ _).mp he
          exact (ih _ (tailOK (tailOK htoks))).1 e2 hsc
        | ok pr =>
          obtain ⟨names, rest⟩ := pr
          obtain ⟨hnames, hrest⟩ := (ih _ (tailOK (tailOK htoks))).2 names rest hsc
          have hred : parse_decl_names src (f + 1) toks =
              .ok ((currentTok toks.tail).value :: names, rest) := by
            unfold parse_decl_names
            rw [if_pos c1]
            exact (if_pos c2).trans (by rw [hsc])
          rw [hred]
          refine ⟨fun e he => Except.noConfusion he, fun names2 rest2 hok => ?_⟩
          obtain ⟨rfl, rfl⟩ := Prod.mk.injEq .. ▸ (Except.ok.injEq _ _).mp hok
          refine ⟨fun n hn => ?_, hrest⟩
          rcases List.mem_cons.mp hn with rfl | hmem
          · exact (currentTok_tokOK (tailOK htoks)).1
          · exact hnames n hmem
      · have hred : parse_decl_names src (f + 1) toks =
            .error (mkParseError src (currentTok toks.tail).pos
              (str "Expected Identifier in Declaration")
              (str "Expected an identifier after ','.")) := by
          unfold parse_decl_names
          rw [if_pos c1]
          exact if_neg c2
        rw [hred]
        refine ⟨fun e he => ?_, fun names rest hok => Except.noConfusion hok⟩
        obtain rfl := (Except.error.injEq _ _).mp he
        exact mkParseError_errOK (currentTok_tokOK (tailOK htoks)).2 (by decide) (by decide)
    · have hred : parse_decl_names src (f + 1) toks = .ok ([], toks) := by
        unfold parse_decl_names
        rw [if_neg c1]
      rw [hred]
      refine ⟨fun e he => Except.noConfusion he, fun names rest hok => ?_⟩
      obtain ⟨rfl, rfl⟩ := Prod.mk.injEq .. ▸ (Except.ok.injEq _ _).mp hok
      exact ⟨fun n hn => absurd hn (List.not_mem_nil n), htoks⟩

/-- Within a well-formed token stream, `parse_decl_stmt` only raises
single-line diagnostics, and on success returns a single-line declaration
and a well-formed remainder. -/
theorem parse_decl_stmt_OK (src : Str) (fuel : Nat) (toks : List Token)
    (htoks : ∀ t ∈ toks, tokOK src t) :
    (∀ e, parse_decl_stmt src fuel toks = .error e → errOK e) ∧
    (∀ st rest, parse_decl_stmt src fuel toks = .ok (st, rest) →
      StmtOK st ∧ ∀ t ∈ rest, tokOK src t) := by
  by_cases c1 : (currentTok toks).kind ≠ TokenKind.KW_TRIT
  · have hred : parse_decl_stmt src fuel toks =
        .error (mkParseError src (currentTok toks).pos (str "Expected 'trit' Keyword")
          (str "Declaration must start with the 'trit' keyword.")) := by
      unfold parse_decl_stmt
      exact if_pos c1
    rw [hred]
    refine ⟨fun e he => ?_, fun st rest hok => Except.noConfusion hok⟩
    obtain rfl := (Except.error.injEq _ _).mp he
    exact mkParseError_errOK (currentTok_tokOK htoks).2 (by decide) (by decide)
  · by_cases c2 : (currentTok toks.tail).kind ≠ TokenKind.IDENT
    · have hred : parse_decl_stmt src fuel toks =
          .error (mkParseError src (currentTok toks.tail).pos
            (str "Expected Identifier in Declaration")
            (str "Expected an identifier after 'trit'.")) := by
        unfold parse_decl_stmt
        exact (if_neg c1).trans (if_pos c2)
      rw [hred]
      refine ⟨fun e he => ?_, fun st rest hok => Except.noConfusion hok⟩
      obtain rfl := (Except.error.injEq _ _).mp he
      exact mkParseError_errOK (currentTok_tokOK (tailOK htoks)).2 (by decide) (by decide)
    · cases hsc : parse_decl_names src fuel toks.tail.tail with
      | error e2 =>
        have hred : parse_decl_stmt src fuel toks = .error e2 := by
          unfold parse_decl_stmt
          exact (if_neg c1).trans ((if_neg c2).trans (by rw [hsc]))
        rw [hred]
        refine ⟨fun e he => ?_, fun st rest hok => Except.noConfusion hok⟩
        obtain rfl := (Except.error.injEq _ _).mp he
        exact (parse_decl_names_OK src fuel _ (tailOK (tailOK htoks))).1 e2 hsc
      | ok pr =>
        obtain ⟨names, rest⟩ := pr
        obtain ⟨hnames, hrest⟩ :=
          (parse_decl_names_OK src fuel _ (tailOK (tailOK htoks))).2 names rest hsc
        have hred : parse_decl_stmt src fuel toks =
            .ok (Statement.Decl (str "trit") ((currentTok toks.tail).value :: names), rest) := by
          unfold parse_decl_stmt
          exact (if_neg c1).trans ((if_neg c2).trans (by rw [hsc]))
        rw [hred]
        refine ⟨fun e he => Except.noConfusion he, fun st rest2 hok => ?_⟩
        obtain ⟨rfl, rfl⟩ := Prod.mk.injEq .. ▸ (Except.ok.injEq _ _).mp hok
        refine ⟨StmtOK.decl (by decide) (fun n hn => ?_), hrest⟩
        rcases List.mem_cons.mp hn with rfl | hmem
        · exact (currentTok_tokOK (tailOK htoks)).1
        · exact hnames n hmem

/-- Within a well-formed token stream, `parse_assign_stmt` only raises
single-line diagnostics, and on success returns a single-line assignment
and a well-formed remainder. -/
theorem parse_assign_stmt_OK (src : Str) (fuel : Nat) (toks : List Token)
    (htoks : ∀ t ∈ toks, tokOK src t) :
    (∀ e, parse_assign_stmt src fuel toks = .error e → errOK e) ∧
    (∀ st rest, parse_assign_stmt src fuel toks = .ok (st, rest) →
      StmtOK st ∧ ∀ t ∈ rest, tokOK src t) := by
  by_cases c1 : (currentTok toks).kind ≠ TokenKind.IDENT
  · have hred : parse_assign_stmt src fuel toks =
        .error (mkParseError src (currentTok toks).pos
          (str "Expected Identifier in Assignment")
          (str "Assignment must start with an identifier.")) := by
      unfold parse_assign_stmt
      rw [if_pos c1]
    rw [hred]
    refine ⟨fun e he => ?_, fun st rest hok => Except.noConfusion hok⟩
    obtain rfl := (Except.error.injEq _ _).mp he
    exact mkParseError_errOK (currentTok_tokOK htoks).2 (by decide) (by decide)
  · by_cases c2 : (currentTok toks.tail).kind ≠ TokenKind.EQUAL
    · have hred : parse_assign_stmt src fuel toks =
          .error (mkParseError src (currentTok toks.tail).pos
            (str "Expected '=' After Identifier")
            (str "Expected '=' after identifier in assignment.")) := by
        unfold parse_assign_stmt
        rw [if_neg c1, if_pos c2]
      rw [hred]
      refine ⟨fun e he => ?_, fun st rest hok => Except.noConfusion hok⟩
      obtain rfl := (Except.error.injEq _ _).mp he
      exact mkParseError_errOK (currentTok_tokOK (tailOK htoks)).2 (by decide) (by decide)
    · cases hsc : parse_expr src fuel toks.tail.tail with
      | error e2 =>
        have hred : parse_assign_stmt src fuel toks = .error e2 := by
          unfold parse_assign_stmt
          rw [if_neg c1, if_neg c2, hsc]
        rw [hred]
        refine ⟨fun e he => ?_, fun st rest hok => Except.noConfusion hok⟩
        obtain rfl := (Except.error.injEq _ _).mp he
        exact ((parse_expr_args_OK src fuel).1 _ (tailOK (tailOK htoks))).1 e2 hsc
      | ok pr =>
        obtain ⟨x, rest⟩ := pr
        obtain ⟨hxOK, hrest⟩ :=
          ((parse_expr_args_OK src fuel).1 _ (tailOK (tailOK htoks))).2 x rest hsc
        have hred : parse_assign_stmt src fuel toks =
            .ok (Statement.Assign (currentTok toks).value x, rest) := by
          unfold parse_assign_stmt
          rw [if_neg c1, if_neg c2, hsc]
        rw [hred]
        refine ⟨fun e he => Except.noConfusion he, fun st rest2 hok => ?_⟩
        obtain ⟨rfl, rfl⟩ := Prod.mk.injEq .. ▸ (Except.ok.injEq _ _).mp hok
        exact ⟨StmtOK.assign (currentTok_tokOK htoks).1 hxOK, hrest⟩

end TrineDSL

namespace TrineDSL

/-- Within a well-formed token stream, `parse_statement` only raises
single-line diagnostics, and on success returns a single-line statement
and a well-formed remainder. -/
theorem parse_statement_OK (src : Str) (fuel : Nat) (toks : List Token)
    (htoks : ∀ t ∈ toks, tokOK src t) :
    (∀ e, parse_statement src fuel toks = .error e → errOK e) ∧
    (∀ st rest, parse_statement src fuel toks = .ok (st, rest) →
      StmtOK st ∧ ∀ t ∈ rest, tokOK src t) := by
  have hdisp :
      (∀ e, (if (currentTok toks).kind = TokenKind.KW_TRIT then
          parse_decl_stmt src fuel toks
        else if (currentTok toks).kind = TokenKind.IDENT then
          parse_assign_stmt src fuel toks
        else
          .error (mkParseError src (currentTok toks).pos
            (str "Unexpected Token at Statement Start")
            (str "Unexpected token '" ++ (currentTok toks).value ++ str "' ("
              ++ kindStr (currentTok toks).kind
              ++ str ") at the beginning of a statement."))) = .error e → errOK e) ∧
      (∀ st rest, (if (currentTok toks).kind = TokenKind.KW_TRIT then
          parse_decl_stmt src fuel toks
        else if (currentTok toks).kind = TokenKind.IDENT then
          parse_assign_stmt src fuel toks
        else
          .error (mkParseError src (currentTok toks).pos
            (str "Unexpected Token at Statement Start")
            (str "Unexpected token '" ++ (currentTok toks).value ++ str "' ("
              ++ kindStr (currentTok toks).kind
              ++ str ") at the beginning of a statement."))) = .ok (st, rest) →
        StmtOK st ∧ ∀ t ∈ rest, tokOK src t) := by
    by_cases c1 : (currentTok toks).kind = TokenKind.KW_TRIT
    · rw [if_pos c1]
      exact parse_decl_stmt_OK src fuel toks htoks
    · rw [if_neg c1]
      by_cases c2 : (currentTok toks).kind = TokenKind.IDENT
      · rw [if_pos c2]
        exact parse_assign_stmt_OK src fuel toks htoks
      · rw [if_neg c2]
        refine ⟨fun e he => ?_, fun st rest hok => Except.noConfusion hok⟩
        obtain rfl := (Except.error.injEq _ _).mp he
        refine mkParseError_errOK (currentTok_tokOK htoks).2 (by decide) ?_
        simp only [List.mem_append, not_or]
        exact ⟨⟨⟨⟨by decide, (currentTok_tokOK htoks).1⟩, by decide⟩,
          kindStr_no_newline _⟩, by decide⟩
  cases hsc : (if (currentTok toks).kind = TokenKind.KW_TRIT then
      parse_decl_stmt src fuel toks
    else if (currentTok toks).kind = TokenKind.IDENT then
      parse_assign_stmt src fuel toks
    else
      .error (mkParseError src (currentTok toks).pos
        (str "Unexpected Token at Statement Start")
        (str "Unexpected token '" ++ (currentTok toks).value ++ str "' ("
          ++ kindStr (currentTok toks).kind
          ++ str ") at the beginning of a statement."))) with
  | error e2 =>
    have hred : parse_statement src fuel toks = .error e2 := by
      unfold parse_statement
      rw [hsc]
    rw [hred]
    refine ⟨fun e he => ?_, fun st rest hok => Except.noConfusion hok⟩
    obtain rfl := (Except.error.injEq _ _).mp he
    exact hdisp.1 e2 hsc
  | ok pr =>
    obtain ⟨stmt, rest⟩ := pr
    obtain ⟨hstOK, hrest⟩ := hdisp.2 stmt rest hsc
    by_cases c4 : (currentTok rest).kind ≠ TokenKind.SEMI
    · have hred : parse_statement src fuel toks =
          .error (mkParseError src (currentTok rest).pos (str "Missing Semicolon")
            (str "Expected ';' at the end of the statement.")) := by
        unfold parse_statement
        rw [hsc]
        exact if_pos c4
      rw [hred]
      refine ⟨fun e he => ?_, fun st rest2 hok => Except.noConfusion hok⟩
      obtain rfl := (Except.error.injEq _ _).mp he
      exact mkParseError_errOK (currentTok_tokOK hrest).2 (by decide) (by decide)
    · have hred : parse_statement src fuel toks = .ok (stmt, rest.tail) := by
        unfold parse_statement
        rw [hsc]
        exact if_neg c4
      rw [hred]
      refine ⟨fun e he => Except.noConfusion he, fun st rest2 hok => ?_⟩
      obtain ⟨rfl, rfl⟩ := Prod.mk.injEq .. ▸ (Except.ok.injEq _ _).mp hok
      exact ⟨hstOK, tailOK hrest⟩

/-- Within a well-formed token stream, the statement loop only raises
single-line diagnostics, and on success returns single-line statements. -/
theorem parse_program_toks_OK (src : Str) :
    ∀ fuel : Nat, ∀ toks : List Token, (∀ t ∈ toks, tokOK src t) →
      (∀ e, parse_program_toks src fuel toks = .error e → errOK e) ∧
      (∀ stmts, parse_program_toks src fuel toks = .ok stmts →
        ∀ st ∈ stmts, StmtOK st) := by
  intro fuel
  induction fuel with
  | zero =>
    intro toks htoks
    refine ⟨fun e he => ?_, fun stmts hok => Except.noConfusion hok⟩
    obtain rfl := (Except.error.injEq _ _).mp he
    decide
  | succ f ih =>
    intro toks htoks
    by_cases c1 : (currentTok toks).kind ≠ TokenKind.EOF
    · cases hsc : parse_statement src f toks with
      | error e2 =>
        have hred : parse_program_toks src (f + 1) toks = .error e2 := by
          unfold parse_program_toks
          rw [if_pos c1, hsc]
        rw [hred]
        refine ⟨fun e he => ?_, fun stmts hok => Except.noConfusion hok⟩
        obtain rfl := (Except.error.injEq _ _).mp he
        exact (parse_statement_OK src f toks htoks).1 e2 hsc
      | ok pr =>
        obtain ⟨stmt, rest⟩ := pr
        obtain ⟨hstOK, hrest⟩ := (parse_statement_OK src f toks htoks).2 stmt rest hsc
        cases hsc2 : parse_program_toks src f rest with
        | error e3 =>
          have hred : parse_program_toks src (f + 1) toks = .error e3 := by
            unfold parse_program_toks
            rw [if_pos c1, hsc]
            have hinner : (match parse_program_toks src f rest with
                | Except.error e => Except.error e
                | Except.ok stmts => Except.ok (stmt :: stmts)) =
                (Except.error e3 : Except TrineDSLError (List Statement)) := by
              rw [hsc2]
            exact hinner
          rw [hred]
          refine ⟨fun e he => ?_, fun stmts hok => Except.noConfusion hok⟩
          obtain rfl := (Except.error.injEq _ _).mp he
          exact (ih rest hrest).1 e3 hsc2
        | ok stmts2 =>
          have hstmts2 := (ih rest hrest).2 stmts2 hsc2
          have hred : parse_program_toks src (f + 1) toks = .ok (stmt :: stmts2) := by
            unfold parse_program_toks
            rw [if_pos c1, hsc]
            have hinner : (match parse_program_toks src f rest with
                | Except.error e => Except.error e
                | Except.ok stmts => Except.ok (stmt :: stmts)) =
                (Except.ok (stmt :: stmts2) : Except TrineDSLError (List Statement)) := by
              rw [hsc2]
            exact hinner
          rw [hred]
          refine ⟨fun e he => Except.noConfusion he, fun stmts hok => ?_⟩
          obtain rfl := (Except.ok.injEq _ _).mp hok
          intro st hst
          rcases List.mem_cons.mp hst with rfl | hmem
          · exact hstOK
          · exact hstmts2 st hmem
    · have hred : parse_program_toks src (f + 1) toks = .ok [] := by
        unfold parse_program_toks
        rw [if_neg c1]
      rw [hred]
      refine ⟨fun e he => Except.noConfusion he, fun stmts hok => ?_⟩
      obtain rfl := (Except.ok.injEq _ _).mp hok
      exact fun st hst => absurd hst (List.not_mem_nil st)

/-- `parse_program` only raises single-line diagnostics, and on success
every statement of the parsed program carries only single-line names. -/
theorem parse_program_OK (src : Str) :
    (∀ e, parse_program src = .error e → errOK e) ∧
    (∀ prog, parse_program src = .ok prog → ∀ st ∈ prog.statements, StmtOK st) := by
  cases hsc : tokenize src with
  | error e2 =>
    have hred : parse_program src = .error e2 := by
      unfold parse_program
      rw [hsc]
    rw [hred]
    refine ⟨fun e he => ?_, fun prog hok => Except.noConfusion hok⟩
    obtain rfl := (Except.error.injEq _ _).mp he
    exact tokenize_errOK src e2 hsc
  | ok toks =>
    have htoks := tokenize_tokOK src toks hsc
    cases hsc2 : parse_program_toks src (2 * toks.length + 4) toks with
    | error e3 =>
      have hred : parse_program src = .error e3 := by
        unfold parse_program
        rw [hsc]
        have hinner : (match parse_program_toks src (2 * toks.length + 4) toks with
            | Except.error e => Except.error e
            | Except.ok stmts => Except.ok (Program.mk stmts)) =
            (Except.error e3 : Except TrineDSLError Program) := by
          rw [hsc2]
        exact hinner
      rw [hred]
      refine ⟨fun e he => ?_, fun prog hok => Except.noConfusion hok⟩
      obtain rfl := (Except.error.injEq _ _).mp he
      exact (parse_program_toks_OK src _ toks htoks).1 e3 hsc2
    | ok stmts =>
      have hstmts := (parse_program_toks_OK src _ toks htoks).2 stmts hsc2
      have hred : parse_program src = .ok ⟨stmts⟩ := by
        unfold parse_program
        rw [hsc]
        have hinner : (match parse_program_toks src (2 * toks.length + 4) toks with
            | Except.error e => Except.error e
            | Except.ok stmts => Except.ok (Program.mk stmts)) =
            (Except.ok (Program.mk stmts) : Except TrineDSLError Program) := by
          rw [hsc2]
        exact hinner
      rw [hred]
      refine ⟨fun e he => Except.noConfusion he, fun prog hok => ?_⟩
      obtain rfl := (Except.ok.injEq _ _).mp hok
      exact hstmts

end TrineDSL

namespace TrineDSL

/-- The domain-check diagnostic has single-line fields. -/
theorem _check_trit_err {x : Int} {e : TrineDSLError} (h : _check_trit x = .error e) :
    errOK e := by
  unfold _check_trit at h
  by_cases c : x = -1 ∨ x = 0 ∨ x = 1
  · rw [if_pos c] at h
    exact Except.noConfusion h
  · rw [if_neg c] at h
    obtain rfl := (Except.error.injEq _ _).mp h
    refine _rt_error_errOK (by decide) ?_
    simp only [List.mem_append, not_or]
    exact ⟨⟨by decide, intStr_no_newline x⟩, by decide⟩

/-- `op_C` only raises single-line diagnostics. -/
theorem op_C_err {x : Int} {e : TrineDSLError} (h : op_C x = .error e) : errOK e := by
  unfold op_C at h
  cases hc : _check_trit x with
  | error e2 =>
    rw [hc] at h
    obtain rfl := (Except.error.injEq _ _).mp h
    exact _check_trit_err hc
  | ok y =>
    rw [hc] at h
    by_cases h1 : y = -1
    · exact Except.noConfusion ((if_pos h1).symm.trans h)
    · by_cases h2 : y = 0
      · exact Except.noConfusion (((if_neg h1).trans (if_pos h2)).symm.trans h)
      · exact Except.noConfusion (((if_neg h1).trans (if_neg h2)).symm.trans h)

/-- `op_N` only raises single-line diagnostics. -/
theorem op_N_err {x : Int} {e : TrineDSLError} (h : op_N x = .error e) : errOK e := by
  unfold op_N at h
  cases hc : _check_trit x with
  | error e2 =>
    rw [hc] at h
    obtain rfl := (Except.error.injEq _ _).mp h
    exact _check_trit_err hc
  | ok y =>
    rw [hc] at h
    exact Except.noConfusion h

/-- `op_A` only raises single-line diagnostics. -/
theorem op_A_err {x : Int} {e : TrineDSLError} (h : op_A x = .error e) : errOK e := by
  unfold op_A at h
  cases hc : _check_trit x with
  | error e2 =>
    rw [hc] at h
    obtain rfl := (Except.error.injEq _ _).mp h
    exact _check_trit_err hc
  | ok y =>
    rw [hc] at h
    exact Except.noConfusion h

/-- `op_TNOT` only raises single-line diagnostics. -/
theorem op_TNOT_err {x : Int} {e : TrineDSLError} (h : op_TNOT x = .error e) : errOK e := by
  unfold op_TNOT at h
  cases hc : _check_trit x with
  | error e2 =>
    rw [hc] at h
    obtain rfl := (Except.error.injEq _ _).mp h
    exact _check_trit_err hc
  | ok y =>
    rw [hc] at h
    exact Except.noConfusion h

/-- `op_TAND` only raises single-line diagnostics. -/
theorem op_TAND_err {a b : Int} {e : TrineDSLError} (h : op_TAND a b = .error e) : errOK e := by
  unfold op_TAND at h
  cases hc : _check_trit a with
  | error e2 =>
    rw [hc] at h
    obtain rfl := (Except.error.injEq _ _).mp h
    exact _check_trit_err hc
  | ok x =>
    rw [hc] at h
    cases hc2 : _check_trit b with
    | error e3 =>
      rw [hc2] at h
      obtain rfl := (Except.error.injEq _ _).mp h
      exact _check_trit_err hc2
    | ok y =>
      rw [hc2] at h
      exact Except.noConfusion h

/-- `op_TOR` only raises single-line diagnostics. -/
theorem op_TOR_err {a b : Int} {e : TrineDSLError} (h : op_TOR a b = .error e) : errOK e := by
  unfold op_TOR at h
  cases hc : _check_trit a with
  | error e2 =>
    rw [hc] at h
    obtain rfl := (Except.error.injEq _ _).mp h
    exact _check_trit_err hc
  | ok x =>
    rw [hc] at h
    cases hc2 : _check_trit b with
    | error e3 =>
      rw [hc2] at h
      obtain rfl := (Except.error.injEq _ _).mp h
      exact _check_trit_err hc2
    | ok y =>
      rw [hc2] at h
      exact Except.noConfusion h

/-- `op_TNAND` only raises single-line diagnostics. -/
theorem op_TNAND_err {a b : Int} {e : TrineDSLError} (h : op_TNAND a b = .error e) :
    errOK e := by
  unfold op_TNAND at h
  cases hc : op_TAND a b with
  | error e2 =>
    rw [hc] at h
    obtain rfl := (Except.error.injEq _ _).mp h
    exact op_TAND_err hc
  | ok v =>
    rw [hc] at h
    exact op_TNOT_err h

/-- `op_TNOR` only raises single-line diagnostics. -/
theorem op_TNOR_err {a b : Int} {e : TrineDSLError} (h : op_TNOR a b = .error e) :
    errOK e := by
  unfold op_TNOR at h
  cases hc : op_TOR a b with
  | error e2 =>
    rw [hc] at h
    obtain rfl := (Except.error.injEq _ _).mp h
    exact op_TOR_err hc
  | ok v =>
    rw [hc] at h
    exact op_TNOT_err h

/-- `op_TXOR` only raises single-line diagnostics. -/
theorem op_TXOR_err {a b : Int} {e : TrineDSLError} (h : op_TXOR a b = .error e) : errOK e := by
  unfold op_TXOR at h
  cases hc : _check_trit a with
  | error e2 =>
    rw [hc] at h
    obtain rfl := (Except.error.injEq _ _).mp h
    exact _check_trit_err hc
  | ok x =>
    rw [hc] at h
    cases hc2 : _check_trit b with
    | error e3 =>
      rw [hc2] at h
      obtain rfl := (Except.error.injEq _ _).mp h
      exact _check_trit_err hc2
    | ok y =>
      rw [hc2] at h
      exact Except.noConfusion h

/-- `op_TSUM` only raises single-line diagnostics. -/
theorem op_TSUM_err {a b : Int} {e : TrineDSLError} (h : op_TSUM a b = .error e) : errOK e := by
  unfold op_TSUM at h
  cases hc : _check_trit a with
  | error e2 =>
    rw [hc] at h
    obtain rfl := (Except.error.injEq _ _).mp h
    exact _check_trit_err hc
  | ok x =>
    rw [hc] at h
    cases hc2 : _check_trit b with
    | error e3 =>
      rw [hc2] at h
      obtain rfl := (Except.error.injEq _ _).mp h
      exact _check_trit_err hc2
    | ok y =>
      rw [hc2] at h
      exact Except.noConfusion h

/-- `op_TCARRY` only raises single-line diagnostics. -/
theorem op_TCARRY_err {a b : Int} {e : TrineDSLError} (h : op_TCARRY a b = .error e) :
    errOK e := by
  unfold op_TCARRY at h
  cases hc : _check_trit a with
  | error e2 =>
    rw [hc] at h
    obtain rfl := (Except.error.injEq _ _).mp h
    exact _check_trit_err hc
  | ok x =>
    rw [hc] at h
    cases hc2 : _check_trit b with
    | error e3 =>
      rw [hc2] at h
      obtain rfl := (Except.error.injEq _ _).mp h
      exact _check_trit_err hc2
    | ok y =>
      rw [hc2] at h
      exact Except.noConfusion h

/-- An arity diagnostic over a single-line function name has single-line
fields. -/
theorem _arity_errOK {name : Str} (hn : '\n' ∉ name) (k g : Nat) :
    errOK (_arity name k g) := by
  refine _rt_error_errOK (by decide) ?_
  simp only [List.mem_append, not_or]
  exact ⟨⟨⟨⟨⟨⟨by decide, hn⟩, by decide⟩, natDigits_no_newline k⟩, by decide⟩,
    natDigits_no_newline g⟩, by decide⟩

end TrineDSL

namespace TrineDSL

/-- The dispatcher `apply_func`, applied to a single-line function name,
only raises single-line diagnostics (operator domain errors, arity errors,
and the unknown-function error). -/
theorem apply_func_err {name : Str} {args : List Int} {e : TrineDSLError}
    (hn : '\n' ∉ name) (h : apply_func name args = .error e) : errOK e := by
  unfold apply_func at h
  by_cases c1 : name = str "C"
  · rw [if_pos c1] at h
    rcases args with _ | ⟨a, _ | ⟨b, args3⟩⟩
    · obtain rfl := (Except.error.injEq _ _).mp h
      exact _arity_errOK hn _ _
    · exact op_C_err h
    · obtain rfl := (Except.error.injEq _ _).mp h
      exact _arity_errOK hn _ _
  rw [if_neg c1] at h
  by_cases c2 : name = str "N"
  · rw [if_pos c2] at h
    rcases args with _ | ⟨a, _ | ⟨b, args3⟩⟩
    · obtain rfl := (Except.error.injEq _ _).mp h
      exact _arity_errOK hn _ _
    · exact op_N_err h
    · obtain rfl := (Except.error.injEq _ _).mp h
      exact _arity_errOK hn _ _
  rw [if_neg c2] at h
  by_cases c3 : name = str "A"
  · rw [if_pos c3] at h
    rcases args with _ | ⟨a, _ | ⟨b, args3⟩⟩
    · obtain rfl := (Except.error.injEq _ _).mp h
      exact _arity_errOK hn _ _
    · exact op_A_err h
    · obtain rfl := (Except.error.injEq _ _).mp h
      exact _arity_errOK hn _ _
  rw [if_neg c3] at h
  by_cases c4 : name = str "TNOT"
  · rw [if_pos c4] at h
    rcases args with _ | ⟨a, _ | ⟨b, args3⟩⟩
    · obtain rfl := (Except.error.injEq _ _).mp h
      exact _arity_errOK hn _ _
    · exact op_TNOT_err h
    · obtain rfl := (Except.error.injEq _ _).mp h
      exact _arity_errOK hn _ _
  rw [if_neg c4] at h
  by_cases c5 : name = str "TAND"
  · rw [if_pos c5] at h
    rcases args with _ | ⟨a, _ | ⟨b, _ | ⟨c, args4⟩⟩⟩
    · obtain rfl := (Except.error.injEq _ _).mp h
      exact _arity_errOK hn _ _
    · obtain rfl := (Except.error.injEq _ _).mp h
      exact _arity_errOK hn _ _
    · exact op_TAND_err h
    · obtain rfl := (Except.error.injEq _ _).mp h
      exact _arity_errOK hn _ _
  rw [if_neg c5] at h
  by_cases c6 : name = str "TOR"
  · rw [if_pos c6] at h
    rcases args with _ | ⟨a, _ | ⟨b, _ | ⟨c, args4⟩⟩⟩
    · obtain rfl := (Except.error.injEq _ _).mp h
      exact _arity_errOK hn _ _
    · obtain rfl := (Except.error.injEq _ _).mp h
      exact _arity_errOK hn _ _
    · exact op_TOR_err h
    · obtain rfl := (Except.error.injEq _ _).mp h
      exact _arity_errOK hn _ _
  rw [if_neg c6] at h
  by_cases c7 : name = str "TNAND"
  · rw [if_pos c7] at h
    rcases args with _ | ⟨a, _ | ⟨b, _ | ⟨c, args4⟩⟩⟩
    · obtain rfl := (Except.error.injEq _ _).mp h
      exact _arity_errOK hn _ _
    · obtain rfl := (Except.error.injEq _ _).mp h
      exact _arity_errOK hn _ _
    · exact op_TNAND_err h
    · obtain rfl := (Except.error.injEq _ _).mp h
      exact _arity_errOK hn _ _
  rw [if_neg c7] at h
  by_cases c8 : name = str "TNOR"
  · rw [if_pos c8] at h
    rcases args with _ | ⟨a, _ | ⟨b, _ | ⟨c, args4⟩⟩⟩
    · obtain rfl := (Except.error.injEq _ _).mp h
      exact _arity_errOK hn _ _
    · obtain rfl := (Except.error.injEq _ _).mp h
      exact _arity_errOK hn _ _
    · exact op_TNOR_err h
    · obtain rfl := (Except.error.injEq _ _).mp h
      exact _arity_errOK hn _ _
  rw [if_neg c8] at h
  by_cases c9 : name = str "TXOR"
  · rw [if_pos c9] at h
    rcases args with _ | ⟨a, _ | ⟨b, _ | ⟨c, args4⟩⟩⟩
    · obtain rfl := (Except.error.injEq _ _).mp h
      exact _arity_errOK hn _ _
    · obtain rfl := (Except.error.injEq _ _).mp h
      exact _arity_errOK hn _ _
    · exact op_TXOR_err h
    · obtain rfl := (Except.error.injEq _ _).mp h
      exact _arity_errOK hn _ _
  rw [if_neg c9] at h
  by_cases c10 : name = str "TSUM"
  · rw [if_pos c10] at h
    rcases args with _ | ⟨a, _ | ⟨b, _ | ⟨c, args4⟩⟩⟩
    · obtain rfl := (Except.error.injEq _ _).mp h
      exact _arity_errOK hn _ _
    · obtain rfl := (Except.error.injEq _ _).mp h
      exact _arity_errOK hn _ _
    · exact op_TSUM_err h
    · obtain rfl := (Except.error.injEq _ _).mp h
      exact _arity_errOK hn _ _
  rw [if_neg c10] at h
  by_cases c11 : name = str "TCARRY"
  · rw [if_pos c11] at h
    rcases args with _ | ⟨a, _ | ⟨b, _ | ⟨c, args4⟩⟩⟩
    · obtain rfl := (Except.error.injEq _ _).mp h
      exact _arity_errOK hn _ _
    · obtain rfl := (Except.error.injEq _ _).mp h
      exact _arity_errOK hn _ _
    · exact op_TCARRY_err h
    · obtain rfl := (Except.error.injEq _ _).mp h
      exact _arity_errOK hn _ _
  rw [if_neg c11] at h
  obtain rfl := (Except.error.injEq _ _).mp h
  refine _rt_error_errOK (by decide) ?_
  simp only [List.mem_append, not_or]
  exact ⟨⟨by decide, hn⟩, by decide⟩

end TrineDSL

namespace TrineDSL

/-- `Env.declare`, applied to a single-line name, only raises single-line
diagnostics. -/
theorem env_declare_err {env : Env} {name : Str} {v : Int} {e : TrineDSLError}
    (hn : '\n' ∉ name) (h : env.declare name v = .error e) : errOK e := by
  unfold Env.declare at h
  by_cases c : env.containsVar name = true
  · rw [if_pos c] at h
    obtain rfl := (Except.error.injEq _ _).mp h
    refine _rt_error_errOK (by decide) ?_
    simp only [List.mem_append, not_or]
    exact ⟨⟨by decide, hn⟩, by decide⟩
  · rw [if_neg c] at h
    exact Except.noConfusion h

/-- `Env.set`, applied to a single-line name, only raises single-line
diagnostics. -/
theorem env_set_err {env : Env} {name : Str} {v : Int} {e : TrineDSLError}
    (hn : '\n' ∉ name) (h : env.set name v = .error e) : errOK e := by
  unfold Env.set at h
  by_cases c : ¬ env.containsVar name = true
  · rw [if_pos c] at h
    obtain rfl := (Except.error.injEq _ _).mp h
    refine _rt_error_errOK (by decide) ?_
    simp only [List.mem_append, not_or]
    exact ⟨⟨by decide, hn⟩, by decide⟩
  · rw [if_neg c] at h
    by_cases c2 : ¬ (v = -1 ∨ v = 0 ∨ v = 1)
    · rw [if_pos c2] at h
      obtain rfl := (Except.error.injEq _ _).mp h
      refine _rt_error_errOK (by decide) ?_
      simp only [List.mem_append, not_or]
      exact ⟨⟨⟨⟨by decide, intStr_no_newline v⟩, by decide⟩, hn⟩, by decide⟩
    · rw [if_neg c2] at h
      exact Except.noConfusion h

/-- `Env.get`, applied to a single-line name, only raises single-line
diagnostics. -/
theorem env_get_err {env : Env} {name : Str} {e : TrineDSLError}
    (hn : '\n' ∉ name) (h : env.get name = .error e) : errOK e := by
  unfold Env.get at h
  cases hf : env.vars.find? (fun p => p.1 == name) with
  | some p =>
    rw [hf] at h
    exact Except.noConfusion h
  | none =>
    rw [hf] at h
    obtain rfl := (Except.error.injEq _ _).mp h
    refine _rt_error_errOK (by decide) ?_
    simp only [List.mem_append, not_or]
    exact ⟨⟨by decide, hn⟩, by decide⟩

/-- Unfolding lemma: evaluating a name reads the environment. -/
theorem eval_expr_name (env : Env) (f : Nat) (n : Str) :
    eval_expr env (f + 1) (.Name n) = env.get n := rfl

/-- Unfolding lemma: evaluating a literal checks the trit domain. -/
theorem eval_expr_lit (env : Env) (f : Nat) (v : Int) :
    eval_expr env (f + 1) (.TritLiteral v) =
      (if v = -1 ∨ v = 0 ∨ v = 1 then .ok v
       else
         .error (_rt_error (str "Invalid Trit Literal")
           (str "Invalid trit literal " ++ intStr v ++ str "; expected -1, 0, or +1."))) :=
  rfl

/-- Unfolding lemma: evaluating a call evaluates the arguments then
dispatches. -/
theorem eval_expr_call (env : Env) (f : Nat) (fn : Str) (args : List Expr) :
    eval_expr env (f + 1) (.FuncCall fn args) =
      (match eval_args env f args with
       | .error e => .error e
       | .ok vals => apply_func fn vals) := rfl

/-- Unfolding lemma: one step of the argument-evaluation loop. -/
theorem eval_args_cons (env : Env) (f : Nat) (x : Expr) (xs : List Expr) :
    eval_args env (f + 1) (x :: xs) =
      (match eval_expr env f x with
       | .error err => .error err
       | .ok v =>
         match eval_args env f xs with
         | .error err => .error err
         | .ok vs => .ok (v :: vs)) := rfl

/-- Over single-line expressions, `eval_expr` only raises single-line
diagnostics; likewise `eval_args` over lists of single-line expressions. -/
theorem eval_expr_args_err :
    ∀ fuel : Nat,
      (∀ env : Env, ∀ x : Expr, ∀ err : TrineDSLError, ExprOK x →
        eval_expr env fuel x = .error err → errOK err) ∧
      (∀ env : Env, ∀ args : List Expr, ∀ err : TrineDSLError, (∀ x ∈ args, ExprOK x) →
        eval_args env fuel args = .error err → errOK err) := by
  intro fuel
  induction fuel with
  | zero =>
    constructor
    · intro env x err hx h
      obtain rfl := (Except.error.injEq _ _).mp h
      decide
    · intro env args err hargs h
      obtain rfl := (Except.error.injEq _ _).mp h
      decide
  | succ f ih =>
    obtain ⟨ihE, ihA⟩ := ih
    constructor
    · intro env x err hx h
      cases hx with
      | name hn =>
        rw [eval_expr_name] at h
        exact env_get_err hn h
      | lit =>
        rw [eval_expr_lit] at h
        rename_i v
        by_cases c : v = -1 ∨ v = 0 ∨ v = 1
        · rw [if_pos c] at h
          exact Except.noConfusion h
        · rw [if_neg c] at h
          obtain rfl := (Except.error.injEq _ _).mp h
          refine _rt_error_errOK (by decide) ?_
          simp only [List.mem_append, not_or]
          exact ⟨⟨by decide, intStr_no_newline v⟩, by decide⟩
      | call hf hargs =>
        rw [eval_expr_call] at h
        cases hsc : eval_args env f (by assumption) with
        | error e2 =>
          rw [hsc] at h
          obtain rfl := (Except.error.injEq _ _).mp h
          exact ihA env _ e2 hargs hsc
        | ok vals =>
          rw [hsc] at h
          exact apply_func_err hf h
    · intro env args err hargs h
      cases args with
      | nil => exact Except.noConfusion h
      | cons x xs =>
        rw [eval_args_cons] at h
        cases hsc : eval_expr env f x with
        | error e2 =>
          rw [hsc] at h
          obtain rfl := (Except.error.injEq _ _).mp h
          exact ihE env x e2 (hargs x (List.mem_cons_self _ _)) hsc
        | ok v =>
          rw [hsc] at h
          cases hsc2 : eval_args env f xs with
          | error e3 =>
            rw [hsc2] at h
            obtain rfl := (Except.error.injEq _ _).mp h
            exact ihA env xs e3 (fun y hy => hargs y (List.mem_cons_of_mem _ hy)) hsc2
          | ok vs =>
            rw [hsc2] at h
            exact Except.noConfusion h

end TrineDSL

namespace TrineDSL

/-- The declaration loop over single-line names only raises single-line
diagnostics. -/
theorem declNames_err :
    ∀ names : List Str, ∀ env : Env, ∀ e : TrineDSLError, (∀ n ∈ names, '\n' ∉ n) →
      declNames names env = .error e → errOK e := by
  intro names
  induction names with
  | nil =>
    intro env e hn h
    exact Except.noConfusion h
  | cons n ns ih =>
    intro env e hn h
    have hred : declNames (n :: ns) env =
        (match env.declare n 0 with
         | .error e => .error e
         | .ok env2 => declNames ns env2) := rfl
    rw [hred] at h
    cases hsc : env.declare n 0 with
    | error e2 =>
      rw [hsc] at h
      obtain rfl := (Except.error.injEq _ _).mp h
      exact env_declare_err (hn n (List.mem_cons_self _ _)) hsc
    | ok env2 =>
      rw [hsc] at h
      exact ih env2 e (fun m hm => hn m (List.mem_cons_of_mem _ hm)) h

/-- A single-line statement only raises single-line diagnostics when
evaluated. -/
theorem eval_stmt_err {fuel : Nat} {st : Statement} {env : Env} {e : TrineDSLError}
    (hst : StmtOK st) (h : eval_stmt fuel st env = .error e) : errOK e := by
  cases hst with
  | decl hty hnames =>
    simp only [eval_stmt] at h
    rename_i ty names
    by_cases c : ty ≠ str "trit"
    · rw [if_pos c] at h
      obtain rfl := (Except.error.injEq _ _).mp h
      refine _rt_error_errOK (by decide) ?_
      simp only [List.mem_append, not_or]
      exact ⟨⟨by decide, hty⟩, by decide⟩
    · rw [if_neg c] at h
      exact declNames_err names env e hnames h
  | assign hn hx =>
    simp only [eval_stmt] at h
    rename_i name x
    cases hsc : eval_expr env fuel x with
    | error e2 =>
      rw [hsc] at h
      obtain rfl := (Except.error.injEq _ _).mp h
      exact (eval_expr_args_err fuel).1 env x e2 hx hsc
    | ok v =>
      rw [hsc] at h
      exact env_set_err hn h

/-- The statement loop over single-line statements only raises single-line
diagnostics. -/
theorem eval_stmts_err {fuel : Nat} :
    ∀ stmts : List Statement, ∀ env : Env, ∀ e : TrineDSLError,
      (∀ st ∈ stmts, StmtOK st) → eval_stmts fuel stmts env = .error e → errOK e := by
  intro stmts
  induction stmts with
  | nil =>
    intro env e hst h
    exact Except.noConfusion h
  | cons s ss ih =>
    intro env e hst h
    have hred : eval_stmts fuel (s :: ss) env =
        (match eval_stmt fuel s env with
         | .error e => .error e
         | .ok env2 => eval_stmts fuel ss env2) := rfl
    rw [hred] at h
    cases hsc : eval_stmt fuel s env with
    | error e2 =>
      rw [hsc] at h
      obtain rfl := (Except.error.injEq _ _).mp h
      exact eval_stmt_err (hst s (List.mem_cons_self _ _)) hsc
    | ok env2 =>
      rw [hsc] at h
      exact ih env2 e (fun st hm => hst st (List.mem_cons_of_mem _ hm)) h

/-- The full pipeline `run_source` only produces single-line diagnostics:
every error field of every diagnostic it can return is newline-free. -/
theorem run_source_errOK (src : Str) (envOpt : Option Env) (e : TrineDSLError)
    (h : run_source src envOpt = .error e) : errOK e := by
  unfold run_source at h
  cases hsc : parse_program src with
  | error e2 =>
    rw [hsc] at h
    obtain rfl := (Except.error.injEq _ _).mp h
    exact (parse_program_OK src).1 e2 hsc
  | ok prog =>
    rw [hsc] at h
    have hstmts := (parse_program_OK src).2 prog hsc
    cases envOpt with
    | none => exact eval_stmts_err prog.statements ⟨[]⟩ e hstmts h
    | some env0 => exact eval_stmts_err prog.statements env0 e hstmts h

end TrineDSL

namespace TrineDSL

/-- C9: every diagnostic, from any of the three stages, formats for display
as exactly three lines: `<Stage>: <Cause>`, then
`    in line <line>: <source line text>`, then `    <description>`, with the
line number 1-based and the source line text and description taken from the
diagnostic's stored fields.  First conjunct: the format holds for any
diagnostic with single-line stored fields; second conjunct: every
diagnostic the pipeline `run_source` can actually return has single-line
stored fields, so its display is exactly those three lines. -/
theorem claim_C9_format_three_lines :
    (∀ e : TrineDSLError,
      '\n' ∉ e.error_type → '\n' ∉ e.error_statement → '\n' ∉ e.line_text →
      '\n' ∉ e.description →
      splitOnNewline (formatError e) =
        [e.error_type ++ str ": " ++ e.error_statement,
         str "    in line " ++ natDigits e.line ++ str ": " ++ e.line_text,
         str "    " ++ e.description]) ∧
    (∀ src : Str, ∀ envOpt : Option Env, ∀ e : TrineDSLError,
      run_source src envOpt = .error e →
      splitOnNewline (formatError e) =
        [e.error_type ++ str ": " ++ e.error_statement,
         str "    in line " ++ natDigits e.line ++ str ": " ++ e.line_text,
         str "    " ++ e.description]) := by
  constructor
  · exact format_three_lines_of_fields
  · intro src envOpt e h
    obtain ⟨h1, h2, h3, h4⟩ := run_source_errOK src envOpt e h
    exact format_three_lines_of_fields e h1 h2 h3 h4

/-- Witness for C9: a concrete diagnostic formatted field-wise, and a
concrete failing run whose returned diagnostic formats as three lines. -/
theorem claim_C9_format_three_lines_witness :
    (splitOnNewline (formatError ⟨str "Lexing Error", str "Invalid Trit Literal", 2, 5,
        str "X = 2;", str "bad literal"⟩) =
      [str "Lexing Error" ++ str ": " ++ str "Invalid Trit Literal",
       str "    in line " ++ natDigits 2 ++ str ": " ++ str "X = 2;",
       str "    " ++ str "bad literal"]) ∧
    (run_source (str "trit A; A = C();") none = .error ( _arity (str "C") 1 0) ∧
     splitOnNewline (formatError ( _arity (str "C") 1 0)) =
      [( _arity (str "C") 1 0).error_type ++ str ": "
         ++ ( _arity (str "C") 1 0).error_statement,
       str "    in line " ++ natDigits ( _arity (str "C") 1 0).line ++ str ": "
         ++ ( _arity (str "C") 1 0).line_text,
       str "    " ++ ( _arity (str "C") 1 0).description]) :=
  ⟨claim_C9_format_three_lines.1
    ⟨str "Lexing Error", str "Invalid Trit Literal", 2, 5, str "X = 2;", str "bad literal"⟩
    (by decide) (by decide) (by decide) (by decide),
   by decide,
   claim_C9_format_three_lines.2 (str "trit A; A = C();") none ( _arity (str "C") 1 0)
    (by decide)⟩

end TrineDSL
